import Mathlib

/-!
Verification of the stateful websocket session engine of the
httppubsubserver repository against its natural-language specification.

The definitions below are a shallow embedding of the Python source in
`src/lonelypss/routes/websocket_endpoint.py` (the monolithic session
engine) and `src/lonelypss/ws/handlers/open/processors/process_subscribe_exact.py`
(the refactored subscribe processor).  Bytes are modelled as `List Nat`
(each entry a byte value), Python `int` counters as `Int` or `Nat`,
wall-clock times (Python floats of seconds) as `Rat`, and the external
collaborators (hashlib digests, the zstd library, the auth verifier, the
delivery fanout) as explicit function parameters, since they are not code
of this repository.
-/

namespace PubSub

/-- Byte strings are lists of byte values. -/
abbrev Bytes := List Nat

/-- Big-endian interpretation of a byte string, mirroring Python
`int.from_bytes(b, "big")`. -/
def beVal (l : Bytes) : Nat := l.foldl (fun a b => a * 256 + b) 0

/-- Big-endian encoding of `v` into exactly `k` bytes, mirroring Python
`v.to_bytes(k, "big")` on in-range values (the caller guards the range,
as Python raises `OverflowError` otherwise). -/
def toBytesBE (v : Nat) : Nat → Bytes
  | 0 => []
  | k + 1 => toBytesBE (v / 256) k ++ [v % 256]

/-- Mirrors `_smallest_unsigned_size` from the source: the fewest bytes
that hold `n` big-endian (`(n.bit_length() - 1) // 8 + 1` with Python
floor division, which yields 0 for `n = 0`). -/
def smallestUnsignedSize (n : Nat) : Nat :=
  if n = 0 then 0 else Nat.log2 n / 8 + 1

/-- Python dictionary lookup `d.get(k)` on an insertion-ordered
association list. -/
def getHeader (hs : List (String × Bytes)) (k : String) : Option Bytes :=
  (hs.find? (fun p => p.fst = k)).map Prod.snd

/-- Python dictionary insertion `d[k] = v`: overwrite in place when the
key exists (keeping its original position), append otherwise. -/
def pyDictInsert (d : List (String × Bytes)) (k : String) (v : Bytes) :
    List (String × Bytes) :=
  match d with
  | [] => [(k, v)]
  | (k0, v0) :: rest =>
      if k0 = k then (k0, v) :: rest else (k0, v0) :: pyDictInsert rest k v

/-! ## Authorization sequencer (from `_make_for_send_websocket_url_and_change_counter`,
`_make_for_receive_websocket_url_and_change_counter` and `_process_configure`). -/

/-- One lowercase hexadecimal digit character code, as produced by Python
`format(n, "x")`. -/
def hexDigitChar (n : Nat) : Char :=
  if n < 10 then Char.ofNat (48 + n) else Char.ofNat (87 + n)

/-- Accumulator loop of lowercase hex rendering of a natural number; the
first argument is fuel, which any value at least `n` makes adequate (the
recursion divides by 16 each step). -/
def hexNatAux : Nat → Nat → List Char → List Char
  | 0, _, acc => acc
  | fuel + 1, n, acc =>
      if n = 0 then acc
      else hexNatAux fuel (n / 16) (hexDigitChar (n % 16) :: acc)

/-- Lowercase, unpadded hex rendering of a natural number, with no `0x`,
as produced by Python `format(n, "x")` for `n ≥ 0`. -/
def hexNat (n : Nat) : String :=
  if n = 0 then "0" else ⟨hexNatAux n n []⟩

/-- Python `format(i, "x")` for arbitrary `int`: negative values are
rendered with a leading minus sign. -/
def pyHex (i : Int) : String :=
  if i < 0 then "-" ++ hexNat (-i).toNat else hexNat i.toNat

/-- Mirrors `_make_for_send_websocket_url_and_change_counter`: formats
the url from the current broadcaster counter and returns the incremented
counter. -/
def mintSendUrl (nonceB64 : String) (broadcasterCounter : Int) : String × Int :=
  ("websocket:" ++ nonceB64 ++ ":" ++ pyHex broadcasterCounter,
   broadcasterCounter + 1)

/-- Mirrors `_make_for_receive_websocket_url_and_change_counter`: formats
the url from the current subscriber counter and returns the decremented
counter. -/
def mintReceiveUrl (nonceB64 : String) (subscriberCounter : Int) : String × Int :=
  ("websocket:" ++ nonceB64 ++ ":" ++ pyHex subscriberCounter,
   subscriberCounter - 1)

/-- The base64 character for one 6-bit group, over the urlsafe alphabet
used by Python `base64.urlsafe_b64encode` (`-` and `_` instead of `+`
and `/`). -/
def b64UrlChar (n : Nat) : Char :=
  if n < 26 then Char.ofNat (65 + n)
  else if n < 52 then Char.ofNat (97 + (n - 26))
  else if n < 62 then Char.ofNat (48 + (n - 52))
  else if n = 62 then Char.ofNat 45
  else Char.ofNat 95

/-- Character list of Python `base64.urlsafe_b64encode`, including the
`=` padding it emits. -/
def b64UrlSafeChars : Bytes → List Char
  | [] => []
  | [a] =>
      [b64UrlChar (a / 4), b64UrlChar (a % 4 * 16), Char.ofNat 61, Char.ofNat 61]
  | [a, b] =>
      [b64UrlChar (a / 4), b64UrlChar (a % 4 * 16 + b / 16),
       b64UrlChar (b % 16 * 4), Char.ofNat 61]
  | a :: b :: c :: rest =>
      b64UrlChar (a / 4) :: b64UrlChar (a % 4 * 16 + b / 16) ::
      b64UrlChar (b % 16 * 4 + c / 64) :: b64UrlChar (c % 64) ::
      b64UrlSafeChars rest

/-- Python `base64.urlsafe_b64encode(data).decode("ascii")`. -/
def b64UrlSafeEncode (data : Bytes) : String := ⟨b64UrlSafeChars data⟩

/-- The `nonce_b64` computed by `_process_configure`:
`base64.urlsafe_b64encode(sha256(subscriber_nonce + broadcaster_nonce).digest())`.
The SHA-256 digest is the external `hashlib` primitive, passed as `sha256`. -/
def configureNonceB64 (sha256 : Bytes → Bytes)
    (subscriberNonce broadcasterNonce : Bytes) : String :=
  b64UrlSafeEncode (sha256 (subscriberNonce ++ broadcasterNonce))

/-- Spec-side rendering of the claimed auth-url format: base64url without
padding.  This follows the words of the specification, for comparison with
the source-side `b64UrlSafeEncode`. -/
def b64UrlNoPadEncode (data : Bytes) : String :=
  ⟨(b64UrlSafeChars data).filter (fun c => c ≠ Char.ofNat 61)⟩

/-- Parses a lowercase-hex character back to its value (15 as a default
for characters outside the alphabet; the roundtrip theorem only applies
it to rendered digits). -/
def hexCharVal (c : Char) : Nat :=
  if c.toNat ≥ 97 then c.toNat - 87 else c.toNat - 48

/-- Parses a lowercase hex digit string back to a natural number. -/
def parseHexNat (s : List Char) : Nat :=
  s.foldl (fun a c => a * 16 + hexCharVal c) 0

/-! ## Compression selection (from `_send_large_message_optimistically`,
`_send_large_message_from_spooled` and `_send_small_message`). -/

/-- A compressor slot entry: the source keeps the dictionary id for both
variants and a task distinguishes preparing from ready. -/
inductive CompressorSlot : Type
  | preparing (dictionaryId : Nat)
  | ready (dictionaryId : Nat)
deriving DecidableEq, Repr

/-- The dictionary id of a slot. -/
def CompressorSlot.dictId : CompressorSlot → Nat
  | .preparing i => i
  | .ready i => i

/-- Whether a slot is in the ready variant. -/
def CompressorSlot.isReady : CompressorSlot → Bool
  | .preparing _ => false
  | .ready _ => true

/-- The subset of broadcaster configuration used by the session engine in
the claims under study. -/
structure BroadcasterConfig where
  compressionAllowed : Bool
  compressionMinSize : Nat
  compressionTrainedMaxSize : Nat
  compressionTrainingLowWatermark : Nat
  compressionTrainingHighWatermark : Nat
  compressionRetrainIntervalSeconds : Rat
deriving Repr, DecidableEq

/-- Compressor id chosen by `_send_large_message_optimistically` (lines
1009-1032): standard (id 1, awaited if still preparing) when compression
is allowed, the length reaches the trained max size and the slot exists;
else the active compressor when ready and the length is inside
`[min_size, trained_max_size)`; else no compression (id 0). -/
def selectCompressorOptimistic (cfg : BroadcasterConfig)
    (standard active : Option CompressorSlot) (length : Nat) : Nat :=
  if cfg.compressionAllowed ∧ length ≥ cfg.compressionTrainedMaxSize ∧ standard.isSome then
    1
  else
    match active with
    | some (.ready i) =>
        if length ≥ cfg.compressionMinSize ∧ length < cfg.compressionTrainedMaxSize then
          i
        else 0
    | _ => 0

/-- Compressor id chosen by `_send_large_message_from_spooled` (lines
1172-1193): standard when the slot exists and the length reaches the
trained max size (no compression-allowed check); else the active
compressor when ready and the length reaches `min_size` (no upper
bound check in this path); else no compression. -/
def selectCompressorSpooled (cfg : BroadcasterConfig)
    (standard active : Option CompressorSlot) (length : Nat) : Nat :=
  if standard.isSome ∧ length ≥ cfg.compressionTrainedMaxSize then
    1
  else
    match active with
    | some (.ready i) =>
        if length ≥ cfg.compressionMinSize then i else 0
    | _ => 0

/-- Compressor id chosen by `_send_small_message` (lines 1292-1308): the
active compressor when ready and the length is inside
`[min_size, trained_max_size)`; else standard, but only when the standard
slot is already in the ready variant; else no compression. -/
def selectCompressorSmall (cfg : BroadcasterConfig)
    (standard active : Option CompressorSlot) (length : Nat) : Nat :=
  match active with
  | some (.ready i) =>
      if length ≥ cfg.compressionMinSize ∧ length < cfg.compressionTrainedMaxSize then
        i
      else
        match standard with
        | some (.ready _) =>
            if length ≥ cfg.compressionTrainedMaxSize then 1 else 0
        | _ => 0
  | _ =>
      match standard with
      | some (.ready _) =>
          if length ≥ cfg.compressionTrainedMaxSize then 1 else 0
      | _ => 0

/-! ## Dictionary trainer (from `_handle_if_should_start_retraining`,
`_store_small_for_compression_training` and
`_should_store_large_message_for_training`). -/

/-- Mirrors `_CompressorTrainingDataCollector`: sample counters and the
length-prefixed tempfile contents. -/
structure Collector where
  startedAt : Rat
  messages : Nat
  length : Nat
  tmpfile : Bytes
deriving Repr, DecidableEq

/-- Mirrors `_CompressorTrainingInfo`, the three-state trainer. -/
inductive TrainingInfo : Type
  | beforeLowWatermark (collector : Collector) (dirty : Bool)
  | beforeHighWatermark (collector : Collector) (dirty : Bool)
  | waitingToRefresh (lastRefreshedAt : Rat)
deriving Repr, DecidableEq

/-- Whether the trainer is in the cooling-down state. -/
def TrainingInfo.isWaiting : TrainingInfo → Bool
  | .waitingToRefresh _ => true
  | _ => false

/-- Mirrors `_handle_if_should_start_retraining`: when cooling down and
the retrain interval has elapsed, move to the high-watermark state with a
fresh collector. -/
def handleIfShouldStartRetraining (cfg : BroadcasterConfig)
    (training : Option TrainingInfo) (now : Rat) : Option TrainingInfo :=
  match training with
  | some (.waitingToRefresh lastRefreshedAt) =>
      if now < lastRefreshedAt + cfg.compressionRetrainIntervalSeconds then
        training
      else
        some (.beforeHighWatermark
          { startedAt := now, messages := 0, length := 0, tmpfile := [] } false)
  | _ => training

/-- Feeds one sample into a collector: the tempfile gains a 4-byte
big-endian length prefix followed by the data, and the counters advance. -/
def Collector.feed (c : Collector) (data : Bytes) : Collector :=
  { c with
    messages := c.messages + 1
    length := c.length + data.length
    tmpfile := c.tmpfile ++ toBytesBE data.length 4 ++ data }

/-- Mirrors `_store_small_for_compression_training`: returns whether the
payload was fed to the collector, together with the updated training
state.  The size checks come first (`compression_min_size > length` and
`compression_trained_max_size <= length` both bail out), then the retrain
check runs, then a cooling-down state bails out, and otherwise the
collector is fed and marked dirty. -/
def storeSmallForTraining (cfg : BroadcasterConfig)
    (training : Option TrainingInfo) (now : Rat) (data : Bytes) :
    Bool × Option TrainingInfo :=
  match training with
  | none => (false, none)
  | some t0 =>
      if cfg.compressionMinSize > data.length then (false, some t0)
      else if cfg.compressionTrainedMaxSize ≤ data.length then (false, some t0)
      else
        match handleIfShouldStartRetraining cfg (some t0) now with
        | some (.waitingToRefresh r) => (false, some (.waitingToRefresh r))
        | some (.beforeLowWatermark c _) =>
            (true, some (.beforeLowWatermark (c.feed data) true))
        | some (.beforeHighWatermark c _) =>
            (true, some (.beforeHighWatermark (c.feed data) true))
        | none => (false, none)

/-- Mirrors `_should_store_large_message_for_training`: same eligibility
checks against the payload length (upper bound checked first in the
source), with the retrain transition applied as a side effect. -/
def shouldStoreLargeForTraining (cfg : BroadcasterConfig)
    (training : Option TrainingInfo) (now : Rat) (length : Nat) :
    Bool × Option TrainingInfo :=
  match training with
  | none => (false, none)
  | some t0 =>
      if cfg.compressionTrainedMaxSize ≤ length then (false, some t0)
      else if cfg.compressionMinSize > length then (false, some t0)
      else
        match handleIfShouldStartRetraining cfg (some t0) now with
        | some (.waitingToRefresh r) => (false, some (.waitingToRefresh r))
        | t => (true, t)

/-! ## Frame codec (from `_parse_websocket_message` and
`_make_websocket_message`). -/

/-- A decoded frame, mirroring `_ParsedWSMessage`.  Header maps are
insertion-ordered association lists, like Python dictionaries.  Incoming
message types are the numbers 1..9 (CONFIGURE=1 .. CONFIRM_RECEIVE=9);
outgoing types are 1..10 (CONFIRM_CONFIGURE=1 .. ENABLE_ZSTD_CUSTOM=10). -/
structure ParsedWSMessage where
  flags : Nat
  typ : Nat
  headers : List (String × Bytes)
  body : Bytes
deriving DecidableEq, Repr

/-- Mirrors `read_exact`: take exactly `n` bytes from the stream or fail. -/
def readExact (s : Bytes) (n : Nat) : Except String (Bytes × Bytes) :=
  if n ≤ s.length then .ok (s.take n, s.drop n)
  else .error "unexpected end of stream"

/-- Mirrors `_STANDARD_MINIMAL_HEADERS_BY_TYPE` (NOTIFY_STREAM, type 7,
is handled separately in the decoder, as in the source). -/
def standardMinimalHeaders (typ : Nat) : List String :=
  if typ = 1 then
    ["x-subscriber-nonce", "x-enable-zstd", "x-enable-training", "x-initial-dict"]
  else if typ = 2 then ["authorization", "x-topic"]
  else if typ = 3 then ["authorization", "x-glob"]
  else if typ = 4 then ["authorization", "x-topic"]
  else if typ = 5 then ["authorization", "x-glob"]
  else if typ = 6 then
    ["authorization", "x-identifier", "x-topic", "x-compressor",
     "x-compressed-length", "x-decompressed-length", "x-compressed-sha512"]
  else if typ = 8 then ["x-part-id", "x-identifier"]
  else ["x-identifier"]

/-- The value-reading loop of the minimal-headers decoder: for each
expected name read a u16 length then that many bytes. -/
def parseMinimalValues (names : List String) (s : Bytes)
    (acc : List (String × Bytes)) : Except String (List (String × Bytes) × Bytes) :=
  match names with
  | [] => .ok (acc, s)
  | n :: rest => do
      let (lenB, s1) ← readExact s 2
      let (v, s2) ← readExact s1 (beVal lenB)
      parseMinimalValues rest s2 (pyDictInsert acc n v)

/-- Mirrors `name_enc.decode("ascii").lower()`: fails on a byte above
127, then lowercases ASCII letters. -/
def asciiDecodeLower (b : Bytes) : Except String String :=
  if b.all (fun c => c < 128) then
    .ok ⟨b.map (fun c => Char.ofNat (if 65 ≤ c ∧ c ≤ 90 then c + 32 else c))⟩
  else .error "ascii decode failure"

/-- The header-reading loop of the expanded-headers decoder. -/
def parseExpandedHeaders (count : Nat) (s : Bytes) (acc : List (String × Bytes)) :
    Except String (List (String × Bytes) × Bytes) :=
  match count with
  | 0 => .ok (acc, s)
  | k + 1 => do
      let (nlB, s1) ← readExact s 2
      let (nameB, s2) ← readExact s1 (beVal nlB)
      let name ← asciiDecodeLower nameB
      let (vlB, s3) ← readExact s2 2
      let (v, s4) ← readExact s3 (beVal vlB)
      parseExpandedHeaders k s4 (pyDictInsert acc name v)

/-- Mirrors `_parse_websocket_message`.  Flags keep their raw 16-bit
value; the type must be one of the nine subscriber-to-broadcaster codes;
bit 0 of the flags selects minimal headers; NOTIFY_STREAM (type 7) has
the special minimal layout with the part-0 extras, and for a nonzero
part id the decoder reads one further length-prefixed value into
`x-identifier`; the remainder of the stream is the body. -/
def parseWebsocketMessage (data : Bytes) : Except String ParsedWSMessage := do
  let (flagsB, s1) ← readExact data 2
  let flags := beVal flagsB
  let (typB, s2) ← readExact s1 2
  let typ := beVal typB
  if typ < 1 ∨ 9 < typ then .error "invalid message type"
  else if flags % 2 = 1 then
    if typ = 7 then do
      let (alB, t1) ← readExact s2 2
      let (auth, t2) ← readExact t1 (beVal alB)
      let (ilB, t3) ← readExact t2 2
      if beVal ilB > 64 then .error "message id max 64 bytes"
      else do
        let (ident, t4) ← readExact t3 (beVal ilB)
        let (plB, t5) ← readExact t4 2
        if beVal plB > 8 then .error "part id max 8 bytes"
        else do
          let (partB, t6) ← readExact t5 (beVal plB)
          let acc0 := pyDictInsert (pyDictInsert (pyDictInsert []
            "authorization" auth) "x-identifier" ident) "x-part-id" partB
          let names := if beVal partB = 0 then
              ["x-topic", "x-compressor", "x-compressed-length",
               "x-decompressed-length", "x-compressed-sha512"]
            else ["x-identifier"]
          let (hs, t7) ← parseMinimalValues names t6 acc0
          .ok ⟨flags, typ, hs, t7⟩
    else do
      let (hs, t) ← parseMinimalValues (standardMinimalHeaders typ) s2 []
      .ok ⟨flags, typ, hs, t⟩
  else do
    let (cntB, t1) ← readExact s2 2
    let (hs, t2) ← parseExpandedHeaders (beVal cntB) t1 []
    .ok ⟨flags, typ, hs, t2⟩

/-- Python `name.encode("ascii")`: fails on a character above 127. -/
def asciiEncode (s : String) : Option Bytes :=
  if s.data.all (fun c => c.toNat < 128) then some (s.data.map Char.toNat)
  else none

/-- The value-writing loop of the minimal-headers encoder; `none` models
the `OverflowError` Python raises when a value does not fit a u16
length. -/
def encodeMinimalValues : List (String × Bytes) → Option Bytes
  | [] => some []
  | (_, v) :: rest =>
      if v.length < 65536 then
        (encodeMinimalValues rest).map (fun r => toBytesBE v.length 2 ++ v ++ r)
      else none

/-- The header-writing loop of the expanded-headers encoder. -/
def encodeExpandedHeaders : List (String × Bytes) → Option Bytes
  | [] => some []
  | (n, v) :: rest =>
      match asciiEncode n with
      | none => none
      | some nb =>
          if nb.length < 65536 ∧ v.length < 65536 then
            (encodeExpandedHeaders rest).map
              (fun r => toBytesBE nb.length 2 ++ nb ++ toBytesBE v.length 2 ++ v ++ r)
          else none

/-- Mirrors `_make_websocket_message`: flags and type as u16, then either
the bare length-prefixed values (minimal) or the counted name/value list
(expanded), then the body. -/
def makeWebsocketMessage (flags typ : Nat) (headers : List (String × Bytes))
    (body : Bytes) : Option Bytes :=
  if flags < 65536 ∧ typ < 65536 then
    if flags % 2 = 1 then
      (encodeMinimalValues headers).map
        (fun h => toBytesBE flags 2 ++ toBytesBE typ 2 ++ h ++ body)
    else
      if headers.length < 65536 then
        (encodeExpandedHeaders headers).map (fun h =>
          toBytesBE flags 2 ++ toBytesBE typ 2 ++
          toBytesBE headers.length 2 ++ h ++ body)
      else none
  else none

/-! ## UTF-8 decoding (Python `bytes.decode("utf-8")`, strict mode). -/

/-- Whether a byte is a UTF-8 continuation byte. -/
def isCont (b : Nat) : Bool := 128 ≤ b ∧ b ≤ 191

/-- Strict UTF-8 decoding of a byte string to characters, rejecting
overlong encodings, surrogates and out-of-range code points exactly as
Python `bytes.decode("utf-8")` does. -/
def decodeUtf8Chars : Bytes → Option (List Char)
  | [] => some []
  | b :: rest =>
      if b < 128 then
        (decodeUtf8Chars rest).map (fun cs => Char.ofNat b :: cs)
      else if 194 ≤ b ∧ b ≤ 223 then
        match rest with
        | c1 :: rest2 =>
            if isCont c1 then
              (decodeUtf8Chars rest2).map
                (fun cs => Char.ofNat ((b - 192) * 64 + (c1 - 128)) :: cs)
            else none
        | _ => none
      else if 224 ≤ b ∧ b ≤ 239 then
        match rest with
        | c1 :: c2 :: rest3 =>
            let firstOk :=
              if b = 224 then 160 ≤ c1 ∧ c1 ≤ 191
              else if b = 237 then 128 ≤ c1 ∧ c1 ≤ 159
              else isCont c1
            if firstOk ∧ isCont c2 then
              (decodeUtf8Chars rest3).map (fun cs =>
                Char.ofNat ((b - 224) * 4096 + (c1 - 128) * 64 + (c2 - 128)) :: cs)
            else none
        | _ => none
      else if 240 ≤ b ∧ b ≤ 244 then
        match rest with
        | c1 :: c2 :: c3 :: rest4 =>
            let firstOk :=
              if b = 240 then 144 ≤ c1 ∧ c1 ≤ 191
              else if b = 244 then 128 ≤ c1 ∧ c1 ≤ 143
              else isCont c1
            if firstOk ∧ isCont c2 ∧ isCont c3 then
              (decodeUtf8Chars rest4).map (fun cs =>
                Char.ofNat ((b - 240) * 262144 + (c1 - 128) * 4096 +
                  (c2 - 128) * 64 + (c3 - 128)) :: cs)
            else none
        | _ => none
      else none

/-- Python `b.decode("utf-8")` as an optional string. -/
def decodeUtf8 (b : Bytes) : Option String :=
  (decodeUtf8Chars b).map (fun cs => ⟨cs⟩)

/-! ## Local receiver and glob relevance (from `_MyReceiver`). -/

/-- A compiled glob pattern, as stored by `_process_subscribe_or_unsubscribe`:
`re.compile(translate(target_str))`.  The regex internals live in the
external `re` module; the source only ever compares the accompanying
original string and calls `match`, which is modelled below. -/
structure CompiledPattern where
  source : String
deriving DecidableEq, Repr

/-- Mirrors `re.compile(translate(target_str))`. -/
def compileGlob (s : String) : CompiledPattern := ⟨s⟩

/-- Mirrors CPython `pattern.match(topic)` where `pattern` was compiled
from `str` and `topic` is `bytes`: the `re` module raises
`TypeError: cannot use a string pattern on a bytes-like object`,
regardless of the pattern or the topic. -/
def matchStrPatternOnBytes (_p : CompiledPattern) (_topic : Bytes) :
    Except String Bool :=
  .error "TypeError: cannot use a string pattern on a bytes-like object"

/-- The local per-session receiver view, mirroring `_MyReceiver`. -/
structure MyReceiver where
  exactSubscriptions : List Bytes
  globSubscriptions : List (CompiledPattern × String)
deriving DecidableEq, Repr

/-- The `any(pattern.match(topic) for pattern, _ in ...)` generator: the
first `TypeError` raised by a match attempt propagates. -/
def anyGlobMatch : List (CompiledPattern × String) → Bytes → Except String Bool
  | [], _ => .ok false
  | (p, _) :: rest, topic => do
      let b ← matchStrPatternOnBytes p topic
      if b then .ok true else anyGlobMatch rest topic

/-- Mirrors `_MyReceiver.is_relevant`: exact membership short-circuits;
otherwise the glob patterns are attempted in order against the raw topic
bytes. -/
def isRelevant (r : MyReceiver) (topic : Bytes) : Except String Bool :=
  if topic ∈ r.exactSubscriptions then .ok true
  else anyGlobMatch r.globSubscriptions topic

/-- Modelled from the spec: the intended matching operation, which
attempts the pattern against the UTF-8 decoding of the topic and treats
an undecodable topic as a non-match.  The pattern semantics itself stays
a parameter (`globSem`), since the regex engine is external. -/
def isRelevantSpec (globSem : CompiledPattern → String → Bool)
    (r : MyReceiver) (topic : Bytes) : Bool :=
  topic ∈ r.exactSubscriptions ||
    (match decodeUtf8 topic with
     | none => false
     | some s => r.globSubscriptions.any (fun p => globSem p.fst s))

/-! ## Acknowledgement handling (from `_process_message_asap`). -/

/-- Mirrors `_Acknowledgement`: the descriptors queued in
`expecting_acks`. -/
inductive ExpectedAck : Type
  | continueReceive (identifier : Bytes) (partId : Nat)
  | confirmReceive (identifier : Bytes)
deriving DecidableEq, Repr

/-- The immediately-handled state touched by `_process_message_asap`. -/
structure AsapState where
  expectingAcks : List ExpectedAck
  unprocessedReceives : List ParsedWSMessage
  processBusy : Bool
deriving DecidableEq, Repr

/-- What `_process_message_asap` did besides updating the state. -/
inductive AsapEffect : Type
  | ackConsumed
  | queuedForLater
  | startedProcessing (m : ParsedWSMessage)
deriving DecidableEq, Repr

/-- Mirrors `_process_message_asap`: CONTINUE_RECEIVE (type 8) and
CONFIRM_RECEIVE (type 9) are handled synchronously by popping the head of
`expecting_acks` and demanding an exact match; other messages start the
processor or join `unprocessed_receives`. -/
def processMessageAsap (st : AsapState) (m : ParsedWSMessage) :
    Except String (AsapState × AsapEffect) :=
  if m.typ = 8 then
    match getHeader m.headers "x-identifier" with
    | none => .error "continue receive requires identifier"
    | some identifier =>
        match getHeader m.headers "x-part-id" with
        | none => .error "continue receive requires part id"
        | some partIdBytes =>
            if partIdBytes.length > 8 then .error "part id too long"
            else
              match st.expectingAcks with
              | [] => .error "not expecting ack right now"
              | ack :: restAcks =>
                  match ack with
                  | .confirmReceive _ => .error "expecting confirm receive, got continue receive"
                  | .continueReceive expIdent expPart =>
                      if expIdent ≠ identifier then .error "ack identifier mismatch"
                      else if expPart ≠ beVal partIdBytes then .error "ack part id mismatch"
                      else .ok ({ st with expectingAcks := restAcks }, .ackConsumed)
  else if m.typ = 9 then
    match getHeader m.headers "x-identifier" with
    | none => .error "confirm receive requires identifier"
    | some identifier =>
        match st.expectingAcks with
        | [] => .error "not expecting ack right now"
        | ack :: restAcks =>
            match ack with
            | .continueReceive _ _ => .error "expecting continue receive, got confirm receive"
            | .confirmReceive expIdent =>
                if expIdent ≠ identifier then .error "ack identifier mismatch"
                else .ok ({ st with expectingAcks := restAcks }, .ackConsumed)
  else if st.processBusy then
    .ok ({ st with unprocessedReceives := st.unprocessedReceives ++ [m] },
         .queuedForLater)
  else
    .ok ({ st with processBusy := true }, .startedProcessing m)

/-! ## Subscribe and unsubscribe processing (from
`_process_subscribe_or_unsubscribe`, and the refactored
`process_subscribe_exact`). -/

/-- UTF-8 encoding of one character (Python `str.encode("utf-8")`). -/
def utf8EncodeChar (c : Char) : Bytes :=
  let n := c.toNat
  if n < 128 then [n]
  else if n < 2048 then [192 + n / 64, 128 + n % 64]
  else if n < 65536 then [224 + n / 4096, 128 + n / 64 % 64, 128 + n % 64]
  else [240 + n / 262144, 128 + n / 4096 % 64, 128 + n / 64 % 64, 128 + n % 64]

/-- Python `s.encode("utf-8")`. -/
def encodeUtf8 (s : String) : Bytes := (s.data.map utf8EncodeChar).flatten

/-- The `authorization` header handling shared by the processors:
`None if not authorization_bytes else authorization_bytes.decode("utf-8")`
(a missing or empty header becomes no authorization; an undecodable one
raises). -/
def headerAuthorization (m : ParsedWSMessage) : Except String (Option String) :=
  match getHeader m.headers "authorization" with
  | none => .ok none
  | some [] => .ok none
  | some bs =>
      match decodeUtf8 bs with
      | none => .error "UnicodeDecodeError"
      | some s => .ok (some s)

/-- Observable actions of the subscribe and unsubscribe processors, in
program order: the auth check, mutations of the local receiver view, the
cross-connection fanout counter calls, and the enqueueing of the CONFIRM
frame for sending. -/
inductive SubEvent : Type
  | authCheck (url : String) (result : String)
  | addExact (topic : Bytes)
  | removeExact (topic : Bytes)
  | incrementExact (topic : Bytes)
  | decrementExact (topic : Bytes)
  | addGlob (globStr : String)
  | removeGlob (globStr : String)
  | incrementGlob (globStr : String)
  | decrementGlob (globStr : String)
  | enqueueSend (frame : Bytes)
deriving DecidableEq, Repr

/-- The session state read and written by the subscribe and unsubscribe
processors. -/
structure SubUnsubState where
  exactSubscriptions : List Bytes
  globSubscriptions : List (CompiledPattern × String)
  subscriberCounter : Int
  nonceB64 : String
deriving DecidableEq, Repr

/-- Result of a subscribe or unsubscribe processor: the event trace, the
error (if the processor raised), and the state as of the return or the
raise (Python mutates in place, so mutations before a raise persist). -/
structure SubUnsubResult where
  events : List SubEvent
  error : Option String
  state : SubUnsubState
deriving Repr

/-- The external authorization verifier for subscribe and unsubscribe
traffic (the pluggable provider, out of scope of the session engine). -/
structure SubUnsubExternals where
  isSubscribeExactAllowed : String → Bytes → Option String → String
  isSubscribeGlobAllowed : String → String → Option String → String

/-- Removes the first glob subscription whose original string matches,
mirroring the index scan and `pop(subscription_idx)` of the source. -/
def removeFirstGlob : List (CompiledPattern × String) → String →
    List (CompiledPattern × String)
  | [], _ => []
  | p :: rest, s => if p.snd = s then rest else p :: removeFirstGlob rest s

/-- Mirrors `_process_subscribe_or_unsubscribe` (the monolithic path):
decode the authorization, read the target header, mint the receive url
(decrementing the subscriber counter), run the verifier, then branch on
the message type.  Note the subscribe branches register the subscription
and increment the fanout counter before the CONFIRM frame is enqueued. -/
def processSubscribeOrUnsubscribe (ext : SubUnsubExternals)
    (st : SubUnsubState) (m : ParsedWSMessage) : SubUnsubResult :=
  match headerAuthorization m with
  | .error e => ⟨[], some e, st⟩
  | .ok authorization =>
    let isExact := m.typ = 2 ∨ m.typ = 4
    match getHeader m.headers (if isExact then "x-topic" else "x-glob") with
    | none => ⟨[], some "KeyError", st⟩
    | some targetBytes =>
      let url := (mintReceiveUrl st.nonceB64 st.subscriberCounter).fst
      let ctr1 := (mintReceiveUrl st.nonceB64 st.subscriberCounter).snd
      let st1 := { st with subscriberCounter := ctr1 }
      if isExact then
        let res := ext.isSubscribeExactAllowed url targetBytes authorization
        let ev0 := [SubEvent.authCheck url res]
        if res ≠ "ok" then ⟨ev0, some res, st1⟩
        else if m.typ = 2 then
          if targetBytes ∈ st1.exactSubscriptions then
            ⟨ev0, some "already subscribed", st1⟩
          else
            let exact2 := st1.exactSubscriptions ++ [targetBytes]
            let st2 := { st1 with exactSubscriptions := exact2 }
            let ev1 := ev0 ++
              [.addExact targetBytes, .incrementExact targetBytes]
            match makeWebsocketMessage m.flags 2 [("x-topic", targetBytes)] [] with
            | none => ⟨ev1, some "OverflowError", st2⟩
            | some frame => ⟨ev1 ++ [.enqueueSend frame], none, st2⟩
        else
          if targetBytes ∉ st1.exactSubscriptions then
            ⟨ev0, some "not subscribed", st1⟩
          else
            let exact2 := st1.exactSubscriptions.erase targetBytes
            let st2 := { st1 with exactSubscriptions := exact2 }
            let ev1 := ev0 ++
              [.removeExact targetBytes, .decrementExact targetBytes]
            match makeWebsocketMessage m.flags 4 [("x-topic", targetBytes)] [] with
            | none => ⟨ev1, some "OverflowError", st2⟩
            | some frame => ⟨ev1 ++ [.enqueueSend frame], none, st2⟩
      else
        match decodeUtf8 targetBytes with
        | none => ⟨[], some "UnicodeDecodeError", st1⟩
        | some targetStr =>
          let res := ext.isSubscribeGlobAllowed url targetStr authorization
          let ev0 := [SubEvent.authCheck url res]
          if res ≠ "ok" then ⟨ev0, some res, st1⟩
          else if m.typ = 3 then
            if st1.globSubscriptions.any (fun p => p.snd = targetStr) then
              ⟨ev0, some "already subscribed", st1⟩
            else
              let globs2 := st1.globSubscriptions ++ [(compileGlob targetStr, targetStr)]
              let st2 := { st1 with globSubscriptions := globs2 }
              let ev1 := ev0 ++ [.addGlob targetStr, .incrementGlob targetStr]
              match makeWebsocketMessage m.flags 3
                  [("x-glob", encodeUtf8 targetStr)] [] with
              | none => ⟨ev1, some "OverflowError", st2⟩
              | some frame => ⟨ev1 ++ [.enqueueSend frame], none, st2⟩
          else
            if st1.globSubscriptions.all (fun p => p.snd ≠ targetStr) then
              ⟨ev0, some "not subscribed", st1⟩
            else
              let globs2 := removeFirstGlob st1.globSubscriptions targetStr
              let st2 := { st1 with globSubscriptions := globs2 }
              let ev1 := ev0 ++ [.removeGlob targetStr, .decrementGlob targetStr]
              match makeWebsocketMessage m.flags 5
                  [("x-glob", encodeUtf8 targetStr)] [] with
              | none => ⟨ev1, some "OverflowError", st2⟩
              | some frame => ⟨ev1 ++ [.enqueueSend frame], none, st2⟩

/-- Mirrors the refactored `process_subscribe_exact` from
`ws/handlers/open/processors/process_subscribe_exact.py`: mint the url,
run the verifier, reject duplicates, then enqueue the CONFIRM frame
before registering the subscription and incrementing the fanout counter.
The frame serialization lives in the external lonelypsp package and is
passed as `serialize`. -/
def processSubscribeExactRefactored
    (authExact : String → Bytes → Option String → String)
    (serialize : Bytes → Bytes)
    (st : SubUnsubState) (topic : Bytes) (authorization : Option String) :
    SubUnsubResult :=
  let url := (mintReceiveUrl st.nonceB64 st.subscriberCounter).fst
  let ctr1 := (mintReceiveUrl st.nonceB64 st.subscriberCounter).snd
  let st1 := { st with subscriberCounter := ctr1 }
  let res := authExact url topic authorization
  let ev0 := [SubEvent.authCheck url res]
  if res ≠ "ok" then ⟨ev0, some "auth rejected", st1⟩
  else if topic ∈ st1.exactSubscriptions then
    ⟨ev0, some "already subscribed to exact topic", st1⟩
  else
    let exact2 := st1.exactSubscriptions ++ [topic]
    ⟨ev0 ++ [.enqueueSend (serialize topic), .addExact topic,
       .incrementExact topic],
     none,
     { st1 with exactSubscriptions := exact2 }⟩

/-! ## Notify processing (from `_process_notify` and
`_process_notify_stream`). -/

/-- The per-connection configuration recorded by `_process_configure`. -/
structure SocketConfiguration where
  enableZstd : Bool
  enableTraining : Bool
  dictionaryId : Nat
  nonceB64 : String
deriving DecidableEq, Repr

/-- The three compressor slots of the open session. -/
structure SessionSlots where
  standardCompressor : Option CompressorSlot
  activeCompressor : Option CompressorSlot
  lastCompressor : Option CompressorSlot
deriving DecidableEq, Repr

/-- Whether an optional slot holds the given dictionary id. -/
def slotMatches (c : Option CompressorSlot) (cid : Nat) : Bool :=
  match c with
  | some c => c.dictId = cid
  | none => false

/-- The three-slot search for a compressor by id, in the order
standard, active, last, as in both `_process_notify` and
`_process_notify_stream`. -/
def SessionSlots.lookupCompressor (s : SessionSlots) (cid : Nat) :
    Option CompressorSlot :=
  if slotMatches s.standardCompressor cid then s.standardCompressor
  else if slotMatches s.activeCompressor cid then s.activeCompressor
  else if slotMatches s.lastCompressor cid then s.lastCompressor
  else none

/-- The external collaborators of the notify paths: the hashlib SHA-512
digest, the pluggable notify verifier, the zstd decompressor (indexed by
dictionary id), and the delivery fanout `handle_trusted_notify`, which
reports whether it was unavailable together with the subscriber count. -/
structure NotifyExternals where
  sha512 : Bytes → Bytes
  isNotifyAllowed : Bytes → Bytes → Option String → String
  decompress : Nat → Bytes → Except String Bytes
  fanout : Bytes → Bytes → Bool × Nat

/-- Mirrors the `_should_store_large_message_for_training` gate followed
by `_make_store_for_training_capturer` and the chunk-copy loop: when the
gate passes, the collector counters advance by the declared length and
the tempfile gains the length prefix and the captured data (the gate
itself may also apply the retrain transition). -/
def Collector.capture (c : Collector) (length : Nat) (data : Bytes) : Collector :=
  { c with
    messages := c.messages + 1
    length := c.length + length
    tmpfile := c.tmpfile ++ toBytesBE length 4 ++ data }

def captureForTraining (cfg : BroadcasterConfig) (training : Option TrainingInfo)
    (now : Rat) (length : Nat) (data : Bytes) : Option TrainingInfo :=
  match shouldStoreLargeForTraining cfg training now length with
  | (false, t) => t
  | (true, t) =>
      match t with
      | some (.beforeLowWatermark c d) =>
          some (.beforeLowWatermark (c.capture length data) d)
      | some (.beforeHighWatermark c d) =>
          some (.beforeHighWatermark (c.capture length data) d)
      | x => x

/-- Result of `_process_notify`: the error (if the processor raised),
whether the payload reached the delivery fanout, the CONFIRM_NOTIFY frame
(if one was enqueued) and the training state as of the return. -/
structure NotifyOutcome where
  error : Option String
  fanoutCalled : Bool
  confirmSent : Option Bytes
  training : Option TrainingInfo
deriving Repr

/-- The shared tail of `_process_notify` once a payload is ready: hand it
to the delivery fanout, fail when the fanout reports unavailable, then
build and enqueue CONFIRM_NOTIFY with the subscriber count. -/
def notifyConfirmTail (ext : NotifyExternals) (flags : Nat)
    (topic payload messageId : Bytes) (tr : Option TrainingInfo) :
    NotifyOutcome :=
  let r := ext.fanout topic payload
  if r.fst then ⟨some "failed to attempt all subscribers", true, none, tr⟩
  else
    match makeWebsocketMessage flags 6
        [("x-identifier", messageId),
         ("x-subscribers", toBytesBE r.snd (smallestUnsignedSize r.snd))] [] with
    | none => ⟨some "OverflowError", true, none, tr⟩
    | some frame => ⟨none, true, some frame, tr⟩

/-- Mirrors `_process_notify`: validate headers, check the configuration
permits the requested compressor, verify authorization, enforce the
compressed length and SHA-512 integrity, then decompress if needed
(feeding the trainer), hand the payload to the delivery fanout and
enqueue CONFIRM_NOTIFY. -/
def processNotify (cfg : BroadcasterConfig) (ext : NotifyExternals)
    (slc : Option SocketConfiguration) (slots : SessionSlots)
    (training : Option TrainingInfo) (now : Rat) (m : ParsedWSMessage) :
    NotifyOutcome :=
  match slc with
  | none => ⟨some "notify before configure", false, none, training⟩
  | some slc =>
    match headerAuthorization m with
    | .error e => ⟨some e, false, none, training⟩
    | .ok authorization =>
      match getHeader m.headers "x-identifier" with
      | none => ⟨some "KeyError", false, none, training⟩
      | some messageId =>
        if messageId.length > 64 then
          ⟨some "x-identifier max 64 bytes", false, none, training⟩
        else
          match getHeader m.headers "x-topic" with
          | none => ⟨some "KeyError", false, none, training⟩
          | some topic =>
            let compressorIdBytes := (getHeader m.headers "x-compressor").getD [0]
            if compressorIdBytes.length > 8 then
              ⟨some "x-compressor max 8 bytes", false, none, training⟩
            else
              let compressorId := beVal compressorIdBytes
              if compressorId ≠ 0 ∧ (¬cfg.compressionAllowed ∨ ¬slc.enableZstd) then
                ⟨some "compression used but compression is forbidden", false, none, training⟩
              else
                match getHeader m.headers "x-compressed-length" with
                | none => ⟨some "KeyError", false, none, training⟩
                | some clenB =>
                  if clenB.length > 8 then
                    ⟨some "compressed length max 8 bytes", false, none, training⟩
                  else
                    match getHeader m.headers "x-decompressed-length" with
                    | none => ⟨some "KeyError", false, none, training⟩
                    | some dlenB =>
                      if dlenB.length > 8 then
                        ⟨some "decompressed length max 8 bytes", false, none, training⟩
                      else
                        match getHeader m.headers "x-compressed-sha512" with
                        | none => ⟨some "KeyError", false, none, training⟩
                        | some sha =>
                          if sha.length ≠ 64 then
                            ⟨some "compressed sha512 must be 64 bytes", false, none, training⟩
                          else if ext.isNotifyAllowed topic sha authorization ≠ "ok" then
                            ⟨some "auth rejected", false, none, training⟩
                          else if m.body.length ≠ beVal clenB then
                            ⟨some "compressed length is incorrect", false, none, training⟩
                          else if ext.sha512 m.body ≠ sha then
                            ⟨some "integrity check failed", false, none, training⟩
                          else if compressorId = 0 then
                            let tr1 := (storeSmallForTraining cfg training now m.body).snd
                            if m.body.length ≠ beVal dlenB then
                              ⟨some "decompressed length is incorrect", false, none, tr1⟩
                            else
                              notifyConfirmTail ext m.flags topic m.body messageId tr1
                          else
                            match slots.lookupCompressor compressorId with
                            | none => ⟨some "unrecognized compressor id", false, none, training⟩
                            | some _ =>
                              match ext.decompress compressorId m.body with
                              | .error e => ⟨some e, false, none, training⟩
                              | .ok dec =>
                                if dec.length ≠ beVal dlenB then
                                  ⟨some "decompressed length is incorrect", false, none, training⟩
                                else
                                  let tr1 := captureForTraining cfg training now
                                    (beVal dlenB) dec
                                  notifyConfirmTail ext m.flags topic dec messageId tr1

/-- Mirrors `_ReceivingNotify`: the reassembly state of an inbound
streamed notification.  The accumulated body doubles as the running
hash input (`body_hasher`), since the streaming SHA-512 over the
appended chunks is the digest of their concatenation. -/
structure ReceivingNotify where
  identifier : Bytes
  lastPartId : Int
  topic : Bytes
  compressorId : Nat
  compressedLength : Nat
  decompressedLength : Nat
  compressedSha512 : Bytes
  body : Bytes
deriving DecidableEq, Repr

/-- Result of `_process_notify_stream`: the error (if the processor
raised), the reassembly state as of the return or the raise, the
training state, the CONTINUE_NOTIFY or CONFIRM_NOTIFY frame (if one was
enqueued) and whether the payload reached the delivery fanout. -/
structure StreamOutcome where
  error : Option String
  incoming : Option ReceivingNotify
  training : Option TrainingInfo
  continueSent : Option Bytes
  confirmSent : Option Bytes
  fanoutCalled : Bool
deriving Repr

/-- The part-append tail of `_process_notify_stream`, shared by part 0
and continuation parts: check the compressor is still available, append
the body, ack with CONTINUE_NOTIFY when the advertised compressed length
is not yet reached, and otherwise verify integrity, decompress if
needed, hand the payload to the delivery fanout and enqueue
CONFIRM_NOTIFY.  On the decompression-error paths the collector may hold
a partial capture; the session is terminating there and the collector is
discarded during cleanup, so the capture is modelled as prefix-only. -/
def notifyStreamAppend (cfg : BroadcasterConfig) (ext : NotifyExternals)
    (slots : SessionSlots) (training : Option TrainingInfo) (now : Rat)
    (m : ParsedWSMessage) (partIdBytes : Bytes) (notif : ReceivingNotify) :
    StreamOutcome :=
  if notif.compressorId ≠ 0 ∧
      (slots.lookupCompressor notif.compressorId).isNone then
    ⟨some "unknown compressor id", some notif, training, none, none, false⟩
  else
    let notif1 := { notif with body := notif.body ++ m.body }
    if notif1.body.length > notif.compressedLength then
      ⟨some "compressed message exceeds indicated length", some notif1,
       training, none, none, false⟩
    else if notif1.body.length < notif.compressedLength then
      match makeWebsocketMessage m.flags 7
          [("x-identifier", notif.identifier), ("x-part-id", partIdBytes)] [] with
      | none => ⟨some "OverflowError", some notif1, training, none, none, false⟩
      | some ack => ⟨none, some notif1, training, some ack, none, false⟩
    else if ext.sha512 notif1.body ≠ notif.compressedSha512 then
      ⟨some "integrity mismatch", some notif1, training, none, none, false⟩
    else
      match slots.lookupCompressor notif.compressorId with
      | none =>
        if notif.compressorId ≠ 0 then
          ⟨some "unknown compressor id", some notif1, training, none, none, false⟩
        else
          let tr1 := captureForTraining cfg training now
            notif.decompressedLength notif1.body
          let r := ext.fanout notif.topic notif1.body
          if r.fst then
            ⟨some "could not attempt all subscribers", some notif1, tr1,
             none, none, true⟩
          else
            match makeWebsocketMessage m.flags 6
                [("x-identifier", notif.identifier),
                 ("x-subscribers", toBytesBE r.snd (smallestUnsignedSize r.snd))]
                [] with
            | none => ⟨some "OverflowError", some notif1, tr1, none, none, true⟩
            | some frame => ⟨none, none, tr1, none, some frame, true⟩
      | some _ =>
        match ext.decompress notif.compressorId notif1.body with
        | .error e =>
            let tr1 := captureForTraining cfg training now
              notif.decompressedLength []
            ⟨some e, some notif1, tr1, none, none, false⟩
        | .ok dec =>
            let tr1 := captureForTraining cfg training now
              notif.decompressedLength dec
            if dec.length > notif.decompressedLength then
              ⟨some "decompresses to larger than indicated", some notif1, tr1,
               none, none, false⟩
            else if dec.length < notif.decompressedLength then
              ⟨some "decompresses to less than indicated", some notif1, tr1,
               none, none, false⟩
            else
              let r := ext.fanout notif.topic dec
              if r.fst then
                ⟨some "failed to attempt all subscribers", some notif1, tr1,
                 none, none, true⟩
              else
                match makeWebsocketMessage m.flags 6
                    [("x-identifier", notif.identifier),
                     ("x-subscribers",
                      toBytesBE r.snd (smallestUnsignedSize r.snd))] [] with
                | none => ⟨some "OverflowError", some notif1, tr1, none, none, true⟩
                | some frame => ⟨none, none, tr1, none, some frame, true⟩

/-- Mirrors `_process_notify_stream`: the identifier must match any
stream in progress; part 0 establishes the reassembly state with
`last_part_id = -1` from the metadata headers; a nonzero part id is
accepted only when it equals `last_part_id + 1` of the stream in
progress (the source never updates `last_part_id` after creating the
reassembly state); then the shared append tail runs. -/
def processNotifyStream (cfg : BroadcasterConfig) (ext : NotifyExternals)
    (slots : SessionSlots) (training : Option TrainingInfo)
    (incoming : Option ReceivingNotify) (now : Rat) (m : ParsedWSMessage) :
    StreamOutcome :=
  match getHeader m.headers "x-identifier" with
  | none => ⟨some "KeyError", incoming, training, none, none, false⟩
  | some messageId =>
    let idMismatch : Bool :=
      match incoming with
      | some n => n.identifier ≠ messageId
      | none => false
    if idMismatch then
      ⟨some "did not finish last message", incoming, training, none, none, false⟩
    else
      match getHeader m.headers "x-part-id" with
      | none => ⟨some "KeyError", incoming, training, none, none, false⟩
      | some partIdBytes =>
        if partIdBytes.length > 8 then
          ⟨some "x-part-id max 8 bytes", incoming, training, none, none, false⟩
        else
          let partId := beVal partIdBytes
          if partId = 0 then
            match incoming with
            | some _ =>
                ⟨some "did not complete previous message", incoming, training,
                 none, none, false⟩
            | none =>
              match getHeader m.headers "x-topic" with
              | none => ⟨some "KeyError", incoming, training, none, none, false⟩
              | some topic =>
                match getHeader m.headers "x-compressor" with
                | none => ⟨some "KeyError", incoming, training, none, none, false⟩
                | some cidB =>
                  if cidB.length > 8 then
                    ⟨some "compressor id max 8 bytes", incoming, training,
                     none, none, false⟩
                  else
                    match getHeader m.headers "x-compressed-length" with
                    | none => ⟨some "KeyError", incoming, training, none, none, false⟩
                    | some clenB =>
                      if clenB.length > 8 then
                        ⟨some "compressed length max 8 bytes", incoming, training,
                         none, none, false⟩
                      else
                        match getHeader m.headers "x-decompressed-length" with
                        | none =>
                            ⟨some "KeyError", incoming, training, none, none, false⟩
                        | some dlenB =>
                          if dlenB.length > 8 then
                            ⟨some "decompressed length max 8 bytes", incoming,
                             training, none, none, false⟩
                          else
                            match getHeader m.headers "x-compressed-sha512" with
                            | none =>
                                ⟨some "KeyError", incoming, training, none, none, false⟩
                            | some sha =>
                              if sha.length ≠ 64 then
                                ⟨some "sha512 must be exactly 64 bytes", incoming,
                                 training, none, none, false⟩
                              else
                                notifyStreamAppend cfg ext slots training now m
                                  partIdBytes
                                  ⟨messageId, -1, topic, beVal cidB, beVal clenB,
                                   beVal dlenB, sha, []⟩
          else
            match incoming with
            | none =>
                ⟨some "received part out of order", incoming, training,
                 none, none, false⟩
            | some n =>
                if n.lastPartId + 1 ≠ (partId : Int) then
                  ⟨some "received part out of order", incoming, training,
                   none, none, false⟩
                else
                  notifyStreamAppend cfg ext slots training now m partIdBytes n

/-! ## Auxiliary predicates used by theorem statements. -/

/-- A lowercase hex digit (0-9 or a-f). -/
def isLowerHexDigitChar (c : Char) : Bool :=
  (48 ≤ c.toNat ∧ c.toNat ≤ 57) ∨ (97 ≤ c.toNat ∧ c.toNat ≤ 102)

/-- Parses the output of Python `format(i, "x")` back to an integer. -/
def parsePyHex (s : String) : Int :=
  match s.data with
  | '-' :: rest => -(parseHexNat rest : Int)
  | l => (parseHexNat l : Int)

/-- Whether the trainer is collecting samples at time `now`: a trainer
exists and, after the retrain-interval check, it is not cooling down. -/
def trainingCollecting (cfg : BroadcasterConfig) (t : Option TrainingInfo)
    (now : Rat) : Bool :=
  match handleIfShouldStartRetraining cfg t now with
  | none => false
  | some t2 => !t2.isWaiting

/-- Whether a processor event is a CONFIRM enqueue or a fanout-counter
decrement. -/
def SubEvent.isSendOrDecrement : SubEvent → Bool
  | .enqueueSend _ => true
  | .decrementExact _ => true
  | .decrementGlob _ => true
  | _ => false

/-- A header name consisting solely of lowercase-stable ASCII: every
character is below 128 and is not an uppercase letter, so Python
`.lower()` leaves it unchanged. -/
def lowerAsciiName (s : String) : Bool :=
  s.data.all (fun c => decide (c.toNat < 128) &&
    !(decide (65 ≤ c.toNat) && decide (c.toNat ≤ 90)))

/-- The dictionary built from a header list by Python insertion order
(last value wins, first position kept). -/
def pyDictOfList (hs : List (String × Bytes)) : List (String × Bytes) :=
  hs.foldl (fun d p => pyDictInsert d p.fst p.snd) []

/-- The sequence of header names the minimal-headers decoder actually
consumes for a message type: the fixed table for most types, and for
NOTIFY_STREAM (type 7) the three leading fields followed by the part-0
extras, or by one further `x-identifier` value when the part id is
nonzero. -/
def minimalWireNames (typ : Nat) (headers : List (String × Bytes)) : List String :=
  if typ = 7 then
    ["authorization", "x-identifier", "x-part-id"] ++
      (match getHeader headers "x-part-id" with
       | some pb =>
           if beVal pb = 0 then
             ["x-topic", "x-compressor", "x-compressed-length",
              "x-decompressed-length", "x-compressed-sha512"]
           else ["x-identifier"]
       | none => [])
  else standardMinimalHeaders typ

/-- The value-size constraints the NOTIFY_STREAM minimal decoder enforces
on the second and third wire fields (identifier at most 64 bytes, part id
at most 8 bytes). -/
def notifyStreamLenOk (headers : List (String × Bytes)) : Prop :=
  match headers with
  | _ :: i :: p :: _ => i.snd.length ≤ 64 ∧ p.snd.length ≤ 8
  | _ => True

/-- The exact-match condition of `_process_message_asap` between an
incoming ack frame and the popped descriptor: the kind, the identifier
and (for CONTINUE_RECEIVE) the part id must agree. -/
def ackFrameMatches (a : ExpectedAck) (m : ParsedWSMessage) : Prop :=
  match a with
  | .continueReceive i p =>
      m.typ = 8 ∧ getHeader m.headers "x-identifier" = some i ∧
        ∃ pb, getHeader m.headers "x-part-id" = some pb ∧ beVal pb = p
  | .confirmReceive i =>
      m.typ = 9 ∧ getHeader m.headers "x-identifier" = some i

/-! ## Theorems. -/

/-- Claim C5, counterexample: the claim says a payload with
`L ≥ compression_trained_max_size` is compressed with the standard
compressor (ID 1) whenever the standard slot is present, but in the
small-message path (`_send_small_message`) a standard compressor that is
still preparing is skipped and the payload goes out uncompressed
(ID 0). -/
theorem claim_C5_counterexample :
    selectCompressorSmall ⟨true, 32, 100, 0, 0, 0⟩
      (some (.preparing 1)) none 100 = 0 ∧
    (some (CompressorSlot.preparing 1)).isSome = true ∧
    100 ≤ (100 : Nat) ∧ (0 : Nat) ≠ 1 := by
  refine ⟨by rfl, by rfl, by omega, by omega⟩

/-- Claim C5 (amended): compression selection per outbound path.  In all
three send paths a ready active compressor is used exactly on
`min_size ≤ L < trained_max_size`; at or above the trained max size the
standard compressor (ID 1) is used when present (for small in-memory
payloads only when it is already ready, and in the optimistic large path
only when compression is allowed); a still-preparing standard compressor
makes a small payload go out uncompressed; a custom active dictionary
(id ≥ 2) is never selected for `L ≥ trained_max_size`, except that the
spooled path lacks the upper-bound check and is protected only by the
standard slot being present; with no compressor slots, or below
`min_size` (and below the trained max size), payloads are uncompressed. -/
theorem claim_C5_amended (cfg : BroadcasterConfig)
    (standard active : Option CompressorSlot) (L : Nat) :
    (cfg.compressionAllowed = true → cfg.compressionTrainedMaxSize ≤ L →
      standard.isSome = true →
      selectCompressorOptimistic cfg standard active L = 1) ∧
    (standard.isSome = true → cfg.compressionTrainedMaxSize ≤ L →
      selectCompressorSpooled cfg standard active L = 1) ∧
    (∀ i, standard = some (.ready i) → cfg.compressionTrainedMaxSize ≤ L →
      selectCompressorSmall cfg standard active L = 1) ∧
    (∀ i, standard = some (.preparing i) → cfg.compressionTrainedMaxSize ≤ L →
      selectCompressorSmall cfg standard active L = 0) ∧
    (∀ i, active = some (.ready i) → cfg.compressionMinSize ≤ L →
      L < cfg.compressionTrainedMaxSize →
      selectCompressorOptimistic cfg standard active L = i ∧
      selectCompressorSpooled cfg standard active L = i ∧
      selectCompressorSmall cfg standard active L = i) ∧
    (∀ i, 2 ≤ i → active = some (.ready i) → cfg.compressionTrainedMaxSize ≤ L →
      selectCompressorOptimistic cfg standard active L ≠ i ∧
      selectCompressorSmall cfg standard active L ≠ i ∧
      (standard.isSome = true → selectCompressorSpooled cfg standard active L ≠ i)) ∧
    (active = none → standard = none →
      selectCompressorOptimistic cfg standard active L = 0 ∧
      selectCompressorSpooled cfg standard active L = 0 ∧
      selectCompressorSmall cfg standard active L = 0) ∧
    (L < cfg.compressionMinSize → L < cfg.compressionTrainedMaxSize →
      selectCompressorOptimistic cfg standard active L = 0 ∧
      selectCompressorSpooled cfg standard active L = 0 ∧
      selectCompressorSmall cfg standard active L = 0) := by
  refine ⟨?_, ?_, ?_, ?_, ?_, ?_, ?_, ?_⟩
  · intro hall hL hstd
    simp [selectCompressorOptimistic, hall, hL, hstd]
  · intro hstd hL
    simp [selectCompressorSpooled, hstd, hL]
  · intro i hstd hL
    subst hstd
    have hn : ¬(cfg.compressionMinSize ≤ L ∧ L < cfg.compressionTrainedMaxSize) := by
      omega
    cases active with
    | none => simp [selectCompressorSmall, hL]
    | some c =>
      cases c with
      | preparing j => simp [selectCompressorSmall, hL]
      | ready j => simp [selectCompressorSmall, hn, hL]
  · intro i hstd hL
    subst hstd
    have hn : ¬(cfg.compressionMinSize ≤ L ∧ L < cfg.compressionTrainedMaxSize) := by
      omega
    cases active with
    | none => simp [selectCompressorSmall]
    | some c =>
      cases c with
      | preparing j => simp [selectCompressorSmall]
      | ready j => simp [selectCompressorSmall, hn]
  · intro i hact hmin hmax
    subst hact
    have hn : ¬(cfg.compressionAllowed = true ∧ cfg.compressionTrainedMaxSize ≤ L ∧
        standard.isSome = true) := by
      intro h; omega
    have hn2 : ¬(standard.isSome = true ∧ cfg.compressionTrainedMaxSize ≤ L) := by
      intro h; omega
    refine ⟨?_, ?_, ?_⟩
    · simp [selectCompressorOptimistic, hn, hmin, hmax]
    · simp [selectCompressorSpooled, hn2, hmin]
    · simp [selectCompressorSmall, hmin, hmax]
  · intro i hi hact hL
    subst hact
    have hn : ¬(cfg.compressionMinSize ≤ L ∧ L < cfg.compressionTrainedMaxSize) := by
      omega
    refine ⟨?_, ?_, ?_⟩
    · simp only [selectCompressorOptimistic]
      split
      · omega
      · simp [hn]; omega
    · have hn2 : ¬(cfg.compressionMinSize ≤ L ∧ L < cfg.compressionTrainedMaxSize) := hn
      cases standard with
      | none => simp [selectCompressorSmall, hn]; omega
      | some c =>
        cases c with
        | preparing j => simp [selectCompressorSmall, hn]; omega
        | ready j => simp [selectCompressorSmall, hn]; split <;> omega
    · intro hstd
      simp [selectCompressorSpooled, hstd, hL]
      omega
  · intro hact hstd
    subst hact; subst hstd
    refine ⟨?_, ?_, ?_⟩ <;> simp [selectCompressorOptimistic, selectCompressorSpooled,
      selectCompressorSmall]
  · intro hmin hmax
    have hn : ¬(cfg.compressionTrainedMaxSize ≤ L) := by omega
    have hn2 : ¬(cfg.compressionMinSize ≤ L) := by omega
    have hn3 : ¬(cfg.compressionMinSize ≤ L ∧ L < cfg.compressionTrainedMaxSize) := by
      omega
    refine ⟨?_, ?_, ?_⟩
    · simp only [selectCompressorOptimistic]
      split
      · omega
      · cases active with
        | none => rfl
        | some c =>
          cases c with
          | preparing j => rfl
          | ready j => simp [hn3]
    · simp only [selectCompressorSpooled]
      split
      · omega
      · cases active with
        | none => rfl
        | some c =>
          cases c with
          | preparing j => rfl
          | ready j => simp [hn2]
    · cases active with
      | none =>
        cases standard with
        | none => simp [selectCompressorSmall]
        | some c =>
          cases c with
          | preparing j => simp [selectCompressorSmall]
          | ready j => simp [selectCompressorSmall, hn]
      | some c =>
        cases c with
        | preparing j =>
          cases standard with
          | none => simp [selectCompressorSmall]
          | some c2 =>
            cases c2 with
            | preparing k => simp [selectCompressorSmall]
            | ready k => simp [selectCompressorSmall, hn]
        | ready j =>
          cases standard with
          | none => simp [selectCompressorSmall, hn3]
          | some c2 =>
            cases c2 with
            | preparing k => simp [selectCompressorSmall, hn3]
            | ready k => simp [selectCompressorSmall, hn3, hn]

/-- Claim C5, witness for the amended theorem: with `min_size = 32`,
`trained_max_size = 100`, a ready active compressor with id 70000 and a
ready standard compressor, a 50-byte payload selects the active
dictionary in all three paths. -/
theorem claim_C5_witness :
    selectCompressorOptimistic ⟨true, 32, 100, 0, 0, 0⟩
      (some (.ready 1)) (some (.ready 70000)) 50 = 70000 ∧
    selectCompressorSpooled ⟨true, 32, 100, 0, 0, 0⟩
      (some (.ready 1)) (some (.ready 70000)) 50 = 70000 ∧
    selectCompressorSmall ⟨true, 32, 100, 0, 0, 0⟩
      (some (.ready 1)) (some (.ready 70000)) 50 = 70000 := by
  have h := (claim_C5_amended ⟨true, 32, 100, 0, 0, 0⟩
    (some (.ready 1)) (some (.ready 70000)) 50).2.2.2.2.1 70000
    rfl (by decide) (by decide)
  exact h

/-- Claim C6: for every CONTINUE_RECEIVE or CONFIRM_RECEIVE frame
(carrying its identifier, and for CONTINUE_RECEIVE a part id of at most
8 bytes): with `expecting_acks` empty the session raises an error;
otherwise exactly the head descriptor is popped, the session raises an
error unless the frame's kind, identifier and (for CONTINUE_RECEIVE)
part id all equal the popped descriptor's fields, and an accepted ack
pops exactly that one descriptor and changes nothing else in the
state. -/
theorem claim_C6_ack_pop (st : AsapState) (m : ParsedWSMessage)
    (hty : m.typ = 8 ∨ m.typ = 9)
    (hid : (getHeader m.headers "x-identifier").isSome = true)
    (hpart : m.typ = 8 →
      ∃ pb, getHeader m.headers "x-part-id" = some pb ∧ pb.length ≤ 8) :
    (st.expectingAcks = [] →
      processMessageAsap st m = .error "not expecting ack right now") ∧
    (∀ a tl, st.expectingAcks = a :: tl →
      (ackFrameMatches a m →
        processMessageAsap st m =
          .ok ({ st with expectingAcks := tl }, .ackConsumed)) ∧
      (¬ ackFrameMatches a m → ∃ e, processMessageAsap st m = .error e)) := by
  obtain ⟨ident, hident⟩ := Option.isSome_iff_exists.mp hid
  rcases hty with hty | hty
  · obtain ⟨pb, hpb, hpblen⟩ := hpart hty
    have hne : ¬(pb.length > 8) := by omega
    constructor
    · intro hempty
      simp [processMessageAsap, hty, hident, hpb, hne, hempty]
    · intro a tl hacks
      constructor
      · intro hmatch
        cases a with
        | confirmReceive i =>
          rcases hmatch with ⟨h9, _⟩
          omega
        | continueReceive i p =>
          rcases hmatch with ⟨_, hi, pb2, hpb2, hval⟩
          rw [hpb] at hpb2
          injection hpb2 with hpb2
          subst hpb2
          rw [hident] at hi
          injection hi with hi
          simp [processMessageAsap, hty, hident, hpb, hne, hacks, hi, hval]
      · intro hmatch
        cases a with
        | confirmReceive i =>
          refine ⟨"expecting confirm receive, got continue receive", ?_⟩
          simp [processMessageAsap, hty, hident, hpb, hne, hacks]
        | continueReceive i p =>
          by_cases hi : i = ident
          · by_cases hp : p = beVal pb
            · exact absurd ⟨hty, by rw [hident, hi], pb, hpb, hp.symm⟩ hmatch
            · refine ⟨"ack part id mismatch", ?_⟩
              simp only [processMessageAsap, hty]
              simp [hident, hpb, hne, hacks, hi, hp]
          · refine ⟨"ack identifier mismatch", ?_⟩
            simp only [processMessageAsap, hty]
            simp [hident, hpb, hne, hacks, hi]
  · constructor
    · intro hempty
      simp [processMessageAsap, hty, hident, hempty]
    · intro a tl hacks
      constructor
      · intro hmatch
        cases a with
        | continueReceive i p =>
          rcases hmatch with ⟨h8, _⟩
          omega
        | confirmReceive i =>
          rcases hmatch with ⟨_, hi⟩
          rw [hident] at hi
          injection hi with hi
          simp [processMessageAsap, hty, hident, hacks, hi]
      · intro hmatch
        cases a with
        | continueReceive i p =>
          refine ⟨"expecting continue receive, got confirm receive", ?_⟩
          simp [processMessageAsap, hty, hident, hacks]
        | confirmReceive i =>
          by_cases hi : i = ident
          · exact absurd ⟨hty, by rw [hident, hi]⟩ hmatch
          · refine ⟨"ack identifier mismatch", ?_⟩
            simp [processMessageAsap, hty, hident, hacks, hi]

/-- Claim C6, witness: a matching CONTINUE_RECEIVE pops the single
queued descriptor, and the same frame against an empty queue is an
error. -/
theorem claim_C6_witness :
    processMessageAsap ⟨[.continueReceive [1] 0], [], false⟩
        ⟨1, 8, [("x-part-id", [0]), ("x-identifier", [1])], []⟩ =
      .ok (⟨[], [], false⟩, .ackConsumed) ∧
    processMessageAsap ⟨[], [], false⟩
        ⟨1, 8, [("x-part-id", [0]), ("x-identifier", [1])], []⟩ =
      .error "not expecting ack right now" := by
  constructor
  · exact ((claim_C6_ack_pop ⟨[.continueReceive [1] 0], [], false⟩
      ⟨1, 8, [("x-part-id", [0]), ("x-identifier", [1])], []⟩
      (Or.inl rfl) (by rfl)
      (fun _ => ⟨[0], rfl, by decide⟩)).2 (.continueReceive [1] 0) [] rfl).1
      ⟨rfl, rfl, [0], rfl, rfl⟩
  · exact (claim_C6_ack_pop ⟨[], [], false⟩
      ⟨1, 8, [("x-part-id", [0]), ("x-identifier", [1])], []⟩
      (Or.inl rfl) (by rfl)
      (fun _ => ⟨[0], rfl, by decide⟩)).1 rfl

/-- Claim C10: an UNSUBSCRIBE_EXACT whose topic is not in
`exact_subscriptions`, or an UNSUBSCRIBE_GLOB whose pattern string is not
among the glob subscriptions, makes the processor raise (so the session
moves to Closing); no CONFIRM frame is enqueued and no fanout counter is
decremented. -/
theorem claim_C10_unsubscribe_missing (ext : SubUnsubExternals)
    (st : SubUnsubState) (m : ParsedWSMessage) :
    (∀ t, m.typ = 4 → getHeader m.headers "x-topic" = some t →
      t ∉ st.exactSubscriptions →
      (processSubscribeOrUnsubscribe ext st m).error.isSome = true ∧
      (processSubscribeOrUnsubscribe ext st m).events.all
        (fun e => !e.isSendOrDecrement) = true) ∧
    (∀ g gs, m.typ = 5 → getHeader m.headers "x-glob" = some g →
      decodeUtf8 g = some gs →
      (∀ p ∈ st.globSubscriptions, p.snd ≠ gs) →
      (processSubscribeOrUnsubscribe ext st m).error.isSome = true ∧
      (processSubscribeOrUnsubscribe ext st m).events.all
        (fun e => !e.isSendOrDecrement) = true) := by
  constructor
  · intro t hty htop hmem
    cases hA : headerAuthorization m with
    | error e =>
      simp [processSubscribeOrUnsubscribe, hA]
    | ok auth =>
      have hiex : (m.typ = 2 ∨ m.typ = 4) = True := by simp [hty]
      simp only [processSubscribeOrUnsubscribe, hA, hiex, if_true]
      simp only [hty, htop]
      split_ifs with h1 h2
      · simp [SubEvent.isSendOrDecrement]
      · omega
      · simp [SubEvent.isSendOrDecrement]
  · intro g gs hty hglob hdec hmem
    cases hA : headerAuthorization m with
    | error e =>
      simp [processSubscribeOrUnsubscribe, hA]
    | ok auth =>
      have hiex : (m.typ = 2 ∨ m.typ = 4) = False := by simp [hty]
      simp only [processSubscribeOrUnsubscribe, hA, hiex, if_false]
      simp only [hty, hglob, hdec]
      have hall : st.globSubscriptions.all (fun p => p.snd ≠ gs) = true := by
        simp only [List.all_eq_true]
        intro p hp
        simp [hmem p hp]
      split_ifs <;>
        first
          | omega
          | simp [SubEvent.isSendOrDecrement]

/-- Claim C10, witness: unsubscribing topic `[5]` on a session with no
subscriptions errors with no confirm and no decrement. -/
theorem claim_C10_witness :
    (processSubscribeOrUnsubscribe ⟨fun _ _ _ => "ok", fun _ _ _ => "ok"⟩
        ⟨[], [], -1, "N"⟩
        ⟨1, 4, [("authorization", [97]), ("x-topic", [5])], []⟩).error =
      some "not subscribed" ∧
    (processSubscribeOrUnsubscribe ⟨fun _ _ _ => "ok", fun _ _ _ => "ok"⟩
        ⟨[], [], -1, "N"⟩
        ⟨1, 4, [("authorization", [97]), ("x-topic", [5])], []⟩).events.all
      (fun e => !e.isSendOrDecrement) = true := by
  have h := (claim_C10_unsubscribe_missing ⟨fun _ _ _ => "ok", fun _ _ _ => "ok"⟩
    ⟨[], [], -1, "N"⟩
    ⟨1, 4, [("authorization", [97]), ("x-topic", [5])], []⟩).1 [5]
    rfl rfl (by simp)
  exact ⟨by decide, h.2⟩

/-- Claim C4: the claim (and the spec) mandate that the CONFIRM frame is
enqueued before the subscription is registered and before the fanout
counter is incremented.  The monolithic `_process_subscribe_or_unsubscribe`
does the opposite: at a concrete accepted SUBSCRIBE_EXACT its event trace
registers and increments first and enqueues CONFIRM last, while the
refactored `process_subscribe_exact` enqueues CONFIRM first as the claim
states. -/
theorem claim_C4_confirm_order_bug :
    (processSubscribeOrUnsubscribe ⟨fun _ _ _ => "ok", fun _ _ _ => "ok"⟩
        ⟨[], [], -1, "N"⟩
        ⟨1, 2, [("authorization", [97]), ("x-topic", [5])], []⟩).events
      = [.authCheck "websocket:N:-1" "ok", .addExact [5], .incrementExact [5],
         .enqueueSend [0, 1, 0, 2, 0, 1, 5]] ∧
    (processSubscribeExactRefactored (fun _ _ _ => "ok") (fun t => t)
        ⟨[], [], -1, "N"⟩ [5] none).events
      = [.authCheck "websocket:N:-1" "ok", .enqueueSend [5], .addExact [5],
         .incrementExact [5]] := by
  constructor <;> rfl

/-- Claim C2: the claim says glob matching attempts the pattern against
the UTF-8 decoding of the topic and returns false on undecodable topics.
The code instead applies the str-compiled pattern to the raw topic bytes,
which raises TypeError for every topic once a glob subscription exists:
here topic b"room/1" (valid UTF-8, and a match under the spec-modelled
semantics) makes `is_relevant` raise instead of returning a boolean. -/
theorem claim_C2_glob_match_bug :
    isRelevant ⟨[], [(compileGlob "room/*", "room/*")]⟩ (encodeUtf8 "room/1") =
      .error "TypeError: cannot use a string pattern on a bytes-like object" ∧
    decodeUtf8 (encodeUtf8 "room/1") = some "room/1" ∧
    isRelevantSpec (fun _ _ => true) ⟨[], [(compileGlob "room/*", "room/*")]⟩
      (encodeUtf8 "room/1") = true := by
  refine ⟨rfl, by decide, by decide⟩

/-- Claim C1: the claim says an in-order NOTIFY_STREAM sequence
0, 1, 2, ... is accepted part by part.  In the code `last_part_id` is set
to -1 when part 0 arrives and never updated, so the strictly in-order
part 1 of the same identifier is rejected with "received part out of
order": part 0 below is acknowledged with CONTINUE_NOTIFY (carrying the
identifier and part id) and leaves `last_part_id = -1`, and part 1 then
errors. -/
theorem claim_C1_stream_parts_bug :
    (processNotifyStream ⟨true, 2, 4, 100, 1000, 60⟩
        ⟨fun _ => List.replicate 64 0, fun _ _ _ => "ok", fun _ b => .ok b,
         fun _ _ => (false, 0)⟩
        ⟨none, none, none⟩ none none 0
        ⟨1, 7, [("authorization", []), ("x-identifier", [1]), ("x-part-id", []),
          ("x-topic", [2]), ("x-compressor", []), ("x-compressed-length", [2]),
          ("x-decompressed-length", [2]),
          ("x-compressed-sha512", List.replicate 64 0)], [9]⟩).error = none ∧
    (processNotifyStream ⟨true, 2, 4, 100, 1000, 60⟩
        ⟨fun _ => List.replicate 64 0, fun _ _ _ => "ok", fun _ b => .ok b,
         fun _ _ => (false, 0)⟩
        ⟨none, none, none⟩ none none 0
        ⟨1, 7, [("authorization", []), ("x-identifier", [1]), ("x-part-id", []),
          ("x-topic", [2]), ("x-compressor", []), ("x-compressed-length", [2]),
          ("x-decompressed-length", [2]),
          ("x-compressed-sha512", List.replicate 64 0)], [9]⟩).incoming =
      some ⟨[1], -1, [2], 0, 2, 2, List.replicate 64 0, [9]⟩ ∧
    (processNotifyStream ⟨true, 2, 4, 100, 1000, 60⟩
        ⟨fun _ => List.replicate 64 0, fun _ _ _ => "ok", fun _ b => .ok b,
         fun _ _ => (false, 0)⟩
        ⟨none, none, none⟩ none none 0
        ⟨1, 7, [("authorization", []), ("x-identifier", [1]), ("x-part-id", []),
          ("x-topic", [2]), ("x-compressor", []), ("x-compressed-length", [2]),
          ("x-decompressed-length", [2]),
          ("x-compressed-sha512", List.replicate 64 0)], [9]⟩).continueSent =
      some [0, 1, 0, 7, 0, 1, 1, 0, 0] ∧
    (processNotifyStream ⟨true, 2, 4, 100, 1000, 60⟩
        ⟨fun _ => List.replicate 64 0, fun _ _ _ => "ok", fun _ b => .ok b,
         fun _ _ => (false, 0)⟩
        ⟨none, none, none⟩ none
        (some ⟨[1], -1, [2], 0, 2, 2, List.replicate 64 0, [9]⟩) 0
        ⟨1, 7, [("authorization", []), ("x-identifier", [1]),
          ("x-part-id", [1])], [9]⟩).error =
      some "received part out of order" := by
  refine ⟨rfl, by decide, by decide, rfl⟩


/-- Claim C7, counterexample: a payload whose length is exactly
`compression_trained_max_size` (here 4, with `min_size = 2` and an
active low-watermark collector) is NOT fed to the trainer, though the
claim says it is sampled. -/
theorem claim_C7_counterexample :
    (storeSmallForTraining ⟨true, 2, 4, 100, 1000, 60⟩
        (some (.beforeLowWatermark ⟨0, 0, 0, []⟩ false)) 0 [1, 2, 3, 4]).fst
      = false ∧
    trainingCollecting ⟨true, 2, 4, 100, 1000, 60⟩
        (some (.beforeLowWatermark ⟨0, 0, 0, []⟩ false)) 0 = true ∧
    2 ≤ ([1, 2, 3, 4] : Bytes).length ∧
    ([1, 2, 3, 4] : Bytes).length = 4 := by
  refine ⟨by rfl, by rfl, by simp, by simp⟩

/-- Claim C7 (amended): a payload is fed to the dictionary-training
collector if and only if training is active (a trainer exists and, after
the retrain-interval check, it is not cooling down) and its length L
satisfies `compression_min_size ≤ L < compression_trained_max_size`; the
payload whose length equals `compression_trained_max_size` exactly is NOT
sampled.  This characterizes both the small-payload store and the
large-payload gate. -/
theorem claim_C7_amended (cfg : BroadcasterConfig) (t : Option TrainingInfo)
    (now : Rat) (data : Bytes) (L : Nat) :
    ((storeSmallForTraining cfg t now data).fst = true ↔
      (trainingCollecting cfg t now = true ∧
       cfg.compressionMinSize ≤ data.length ∧
       data.length < cfg.compressionTrainedMaxSize)) ∧
    ((shouldStoreLargeForTraining cfg t now L).fst = true ↔
      (trainingCollecting cfg t now = true ∧
       cfg.compressionMinSize ≤ L ∧ L < cfg.compressionTrainedMaxSize)) := by
  rcases t with _ | t0
  · simp [storeSmallForTraining, shouldStoreLargeForTraining, trainingCollecting,
      handleIfShouldStartRetraining]
  · rcases t0 with ⟨c, d⟩ | ⟨c, d⟩ | r
    · constructor
      · simp only [storeSmallForTraining, trainingCollecting,
          handleIfShouldStartRetraining, TrainingInfo.isWaiting]
        split_ifs <;> simp_all
      · simp only [shouldStoreLargeForTraining, trainingCollecting,
          handleIfShouldStartRetraining, TrainingInfo.isWaiting]
        split_ifs <;> simp_all
    · constructor
      · simp only [storeSmallForTraining, trainingCollecting,
          handleIfShouldStartRetraining, TrainingInfo.isWaiting]
        split_ifs <;> simp_all
      · simp only [shouldStoreLargeForTraining, trainingCollecting,
          handleIfShouldStartRetraining, TrainingInfo.isWaiting]
        split_ifs <;> simp_all
    · by_cases hlt : now < r + cfg.compressionRetrainIntervalSeconds
      · constructor
        · simp only [storeSmallForTraining, trainingCollecting,
            handleIfShouldStartRetraining, TrainingInfo.isWaiting]
          split_ifs <;> simp_all
        · simp only [shouldStoreLargeForTraining, trainingCollecting,
            handleIfShouldStartRetraining, TrainingInfo.isWaiting]
          split_ifs <;> simp_all
      · constructor
        · simp only [storeSmallForTraining, trainingCollecting,
            handleIfShouldStartRetraining, TrainingInfo.isWaiting]
          split_ifs <;> simp_all
        · simp only [shouldStoreLargeForTraining, trainingCollecting,
            handleIfShouldStartRetraining, TrainingInfo.isWaiting]
          split_ifs <;> simp_all

set_option maxHeartbeats 2000000 in
/-- Claim C9: a NOTIFY frame whose body length does not equal the
advertised x-compressed-length, or whose SHA-512 over the body does not
equal the advertised x-compressed-sha512, makes the processor raise (so
the session terminates), no CONFIRM_NOTIFY is emitted and the payload is
never handed to the delivery fanout. -/
theorem claim_C9_integrity (cfg : BroadcasterConfig) (ext : NotifyExternals)
    (slc : Option SocketConfiguration) (slots : SessionSlots)
    (training : Option TrainingInfo) (now : Rat) (m : ParsedWSMessage)
    (clenB sha : Bytes)
    (hclen : getHeader m.headers "x-compressed-length" = some clenB)
    (hsha : getHeader m.headers "x-compressed-sha512" = some sha)
    (hbad : m.body.length ≠ beVal clenB ∨ ext.sha512 m.body ≠ sha) :
    (processNotify cfg ext slc slots training now m).error.isSome = true ∧
    (processNotify cfg ext slc slots training now m).fanoutCalled = false ∧
    (processNotify cfg ext slc slots training now m).confirmSent = none := by
  rcases hbad with hbad | hbad <;>
  · simp only [processNotify, hclen, hsha]
    repeat' (split <;> (try simp_all))


/-- Claim C9, witness: a NOTIFY with matching length but mismatched
SHA-512 errors without calling the fanout or confirming. -/
theorem claim_C9_witness :
    (processNotify ⟨true, 2, 4, 100, 1000, 60⟩
      ⟨fun _ => List.replicate 64 1, fun _ _ _ => "ok", fun _ b => .ok b,
       fun _ _ => (false, 0)⟩
      (some ⟨true, false, 0, "N"⟩) ⟨none, none, none⟩ none 0
      ⟨1, 6, [("authorization", []), ("x-identifier", [1]), ("x-topic", [2]),
        ("x-compressor", []), ("x-compressed-length", [2]),
        ("x-decompressed-length", [2]),
        ("x-compressed-sha512", List.replicate 64 0)], [9, 9]⟩).error.isSome
      = true ∧
    (processNotify ⟨true, 2, 4, 100, 1000, 60⟩
      ⟨fun _ => List.replicate 64 1, fun _ _ _ => "ok", fun _ b => .ok b,
       fun _ _ => (false, 0)⟩
      (some ⟨true, false, 0, "N"⟩) ⟨none, none, none⟩ none 0
      ⟨1, 6, [("authorization", []), ("x-identifier", [1]), ("x-topic", [2]),
        ("x-compressor", []), ("x-compressed-length", [2]),
        ("x-decompressed-length", [2]),
        ("x-compressed-sha512", List.replicate 64 0)], [9, 9]⟩).fanoutCalled
      = false ∧
    (processNotify ⟨true, 2, 4, 100, 1000, 60⟩
      ⟨fun _ => List.replicate 64 1, fun _ _ _ => "ok", fun _ b => .ok b,
       fun _ _ => (false, 0)⟩
      (some ⟨true, false, 0, "N"⟩) ⟨none, none, none⟩ none 0
      ⟨1, 6, [("authorization", []), ("x-identifier", [1]), ("x-topic", [2]),
        ("x-compressor", []), ("x-compressed-length", [2]),
        ("x-decompressed-length", [2]),
        ("x-compressed-sha512", List.replicate 64 0)], [9, 9]⟩).confirmSent
      = none := by
  exact claim_C9_integrity ⟨true, 2, 4, 100, 1000, 60⟩
    ⟨fun _ => List.replicate 64 1, fun _ _ _ => "ok", fun _ b => .ok b,
     fun _ _ => (false, 0)⟩
    (some ⟨true, false, 0, "N"⟩) ⟨none, none, none⟩ none 0
    ⟨1, 6, [("authorization", []), ("x-identifier", [1]), ("x-topic", [2]),
      ("x-compressor", []), ("x-compressed-length", [2]),
      ("x-decompressed-length", [2]),
      ("x-compressed-sha512", List.replicate 64 0)], [9, 9]⟩
    [2] (List.replicate 64 0) rfl rfl (Or.inr (by decide))

theorem hexDigitChar_val (d : Nat) (h : d < 16) :
    hexCharVal (hexDigitChar d) = d := by
  interval_cases d <;> rfl

theorem hexDigitChar_lower (d : Nat) (h : d < 16) :
    isLowerHexDigitChar (hexDigitChar d) = true := by
  interval_cases d <;> rfl

theorem hexDigitChar_ne_zero (d : Nat) (h1 : d ≠ 0) (h2 : d < 16) :
    hexDigitChar d ≠ Char.ofNat 48 := by
  interval_cases d <;> first | omega | decide

theorem hexNatAux_zero (fuel : Nat) (acc : List Char) :
    hexNatAux fuel 0 acc = acc := by
  cases fuel <;> rfl

theorem hexNatAux_step (k n : Nat) (acc : List Char) (hn : n ≠ 0) :
    hexNatAux (k + 1) n acc =
      hexNatAux k (n / 16) (hexDigitChar (n % 16) :: acc) := by
  simp [hexNatAux, hn]

theorem hexNatAux_acc (fuel : Nat) : ∀ n acc, n ≤ fuel →
    hexNatAux fuel n acc = hexNatAux fuel n [] ++ acc := by
  induction fuel with
  | zero =>
    intro n acc h
    interval_cases n
    rfl
  | succ k ih =>
    intro n acc h
    by_cases hn : n = 0
    · subst hn; rw [hexNatAux_zero, hexNatAux_zero]; rfl
    · have hdiv : n / 16 ≤ k := by
        have := Nat.div_lt_self (Nat.pos_of_ne_zero hn) (by omega : 1 < 16)
        omega
      rw [hexNatAux_step k n acc hn, hexNatAux_step k n [] hn,
          ih (n / 16) (hexDigitChar (n % 16) :: acc) hdiv,
          ih (n / 16) [hexDigitChar (n % 16)] hdiv]
      simp

theorem hexNatAux_split (k n : Nat) (hn : n ≠ 0) (hdiv : n / 16 ≤ k) :
    hexNatAux (k + 1) n [] =
      hexNatAux k (n / 16) [] ++ [hexDigitChar (n % 16)] := by
  rw [hexNatAux_step k n [] hn, hexNatAux_acc k (n / 16) _ hdiv]

theorem parseHexNat_append (xs : List Char) (c : Char) :
    parseHexNat (xs ++ [c]) = parseHexNat xs * 16 + hexCharVal c := by
  simp [parseHexNat, List.foldl_append]

theorem parseHexNat_hexNatAux (fuel : Nat) : ∀ n, n ≤ fuel →
    parseHexNat (hexNatAux fuel n []) = n := by
  induction fuel with
  | zero =>
    intro n h
    interval_cases n
    rfl
  | succ k ih =>
    intro n h
    by_cases hn : n = 0
    · subst hn; rw [hexNatAux_zero]; rfl
    · have hdiv : n / 16 ≤ k := by
        have := Nat.div_lt_self (Nat.pos_of_ne_zero hn) (by omega : 1 < 16)
        omega
      rw [hexNatAux_split k n hn hdiv, parseHexNat_append, ih (n / 16) hdiv,
          hexDigitChar_val (n % 16) (Nat.mod_lt n (by omega))]
      omega

theorem hexNatAux_all_lower (fuel : Nat) : ∀ n, n ≤ fuel →
    (hexNatAux fuel n []).all isLowerHexDigitChar = true := by
  induction fuel with
  | zero =>
    intro n h
    interval_cases n
    rfl
  | succ k ih =>
    intro n h
    by_cases hn : n = 0
    · subst hn; rw [hexNatAux_zero]; rfl
    · have hdiv : n / 16 ≤ k := by
        have := Nat.div_lt_self (Nat.pos_of_ne_zero hn) (by omega : 1 < 16)
        omega
      rw [hexNatAux_split k n hn hdiv, List.all_append, Bool.and_eq_true]
      refine ⟨ih (n / 16) hdiv, ?_⟩
      simp [hexDigitChar_lower (n % 16) (Nat.mod_lt n (by omega))]

theorem hexNatAux_head_ne_zero (fuel : Nat) : ∀ n, n ≠ 0 → n ≤ fuel →
    ∃ c l, hexNatAux fuel n [] = c :: l ∧ c ≠ Char.ofNat 48 := by
  induction fuel with
  | zero =>
    intro n h1 h2
    omega
  | succ k ih =>
    intro n h1 h2
    have hdiv : n / 16 ≤ k := by
      have := Nat.div_lt_self (Nat.pos_of_ne_zero h1) (by omega : 1 < 16)
      omega
    have hstep := hexNatAux_split k n h1 hdiv
    by_cases hq : n / 16 = 0
    · refine ⟨hexDigitChar (n % 16), [], ?_, ?_⟩
      · rw [hstep, hq, hexNatAux_zero]
        rfl
      · have hmod : n % 16 ≠ 0 := by omega
        exact hexDigitChar_ne_zero (n % 16) hmod (Nat.mod_lt n (by omega))
    · obtain ⟨c, l, hl, hc⟩ := ih (n / 16) hq hdiv
      exact ⟨c, l ++ [hexDigitChar (n % 16)], by rw [hstep, hl]; simp, hc⟩

theorem b64UrlSafeChars_pad (data : Bytes) : ∀ _h : data.length % 3 = 2,
    ∃ cs, b64UrlSafeChars data = cs ++ [Char.ofNat 61] := by
  induction data using b64UrlSafeChars.induct with
  | case1 => intro h; simp at h
  | case2 a => intro h; simp at h
  | case3 a b =>
    intro _
    exact ⟨[b64UrlChar (a / 4), b64UrlChar (a % 4 * 16 + b / 16),
      b64UrlChar (b % 16 * 4)], rfl⟩
  | case4 a b c rest ih =>
    intro h
    have hlen : rest.length % 3 = 2 := by
      simp [List.length_cons] at h
      omega
    obtain ⟨cs, hcs⟩ := ih hlen
    exact ⟨b64UrlChar (a / 4) :: b64UrlChar (a % 4 * 16 + b / 16) ::
      b64UrlChar (b % 16 * 4 + c / 64) :: b64UrlChar (c % 64) :: cs, by
        simp [b64UrlSafeChars, hcs]⟩


theorem parsePyHex_head_ne (c : Char) (l : List Char) (h : c ≠ '-') :
    parsePyHex ⟨c :: l⟩ = (parseHexNat (c :: l) : Int) := by
  unfold parsePyHex
  split
  · rename_i rest heq
    simp only [List.cons.injEq] at heq
    exact absurd heq.1 h
  · rfl


theorem parsePyHex_neg (l : List Char) :
    parsePyHex ⟨'-' :: l⟩ = -(parseHexNat l : Int) := by
  unfold parsePyHex
  split
  · rename_i rest heq
    simp only [List.cons.injEq] at heq
    rw [heq.2]
  · rename_i hne
    exact absurd rfl (hne l)


theorem pyHex_roundtrip (i : Int) : parsePyHex (pyHex i) = i := by
  by_cases hneg : i < 0
  · have hm : (-i).toNat ≠ 0 := by omega
    have hdata : ("-" ++ hexNat (-i).toNat) =
        (⟨'-' :: (hexNat (-i).toNat).data⟩ : String) := rfl
    rw [pyHex, if_pos hneg, hdata, parsePyHex_neg]
    have hdata2 : (hexNat (-i).toNat).data = hexNatAux (-i).toNat (-i).toNat [] := by
      simp [hexNat, hm]
    rw [hdata2, parseHexNat_hexNatAux (-i).toNat (-i).toNat le_rfl]
    omega
  · simp only [pyHex, if_neg hneg]
    by_cases hz : i.toNat = 0
    · rw [hz]
      have : i = 0 := by omega
      rw [this]
      rfl
    · obtain ⟨c, l, hl, _⟩ := hexNatAux_head_ne_zero i.toNat i.toNat hz le_rfl
      have hlower := hexNatAux_all_lower i.toNat i.toNat le_rfl
      have hcl : isLowerHexDigitChar c = true := by
        rw [hl] at hlower
        simp only [List.all_cons, Bool.and_eq_true] at hlower
        exact hlower.1
      have hcne : c ≠ '-' := by
        intro hc
        rw [hc] at hcl
        exact absurd hcl (by decide)
      have hdata2 : hexNat i.toNat = (⟨c :: l⟩ : String) := by
        have : (hexNat i.toNat).data = hexNatAux i.toNat i.toNat [] := by
          simp [hexNat, hz]
        cases hh : hexNat i.toNat
        rw [hh] at this
        simp only at this
        rw [this, hl]
      rw [hdata2, parsePyHex_head_ne c l hcne, ← hl,
          parseHexNat_hexNatAux i.toNat i.toNat le_rfl]
      omega

/-- Claim C3 (amended): minting a send-side auth url returns the string
"websocket:" (not "stateful:") ++ nonce_b64 ++ ":" ++ hex(counter) and
increments the broadcaster counter by exactly 1; the receive-side url is
identical in shape and decrements the subscriber counter by exactly 1;
the hex rendering is lowercase unpadded hex with no 0x and negatives with
a leading minus (witnessed by the digit-set, no-leading-zero and parse
roundtrip properties); and nonce_b64 is the base64url encoding of
SHA-256(subscriber_nonce ++ broadcaster_nonce) WITH the trailing "="
padding Python base64.urlsafe_b64encode emits on a 32-byte digest, not
the padding-free form the claim states. -/
theorem claim_C3_amended :
    (∀ nonce ctr, mintSendUrl nonce ctr =
        ("websocket:" ++ nonce ++ ":" ++ pyHex ctr, ctr + 1)) ∧
    (∀ nonce ctr, mintReceiveUrl nonce ctr =
        ("websocket:" ++ nonce ++ ":" ++ pyHex ctr, ctr - 1)) ∧
    (∀ i : Int, parsePyHex (pyHex i) = i) ∧
    (∀ n : Nat, (hexNat n).data.all isLowerHexDigitChar = true) ∧
    (∀ n : Nat, n ≠ 0 → ∃ c l, (hexNat n).data = c :: l ∧ c ≠ Char.ofNat 48) ∧
    (∀ i : Int, i < 0 → pyHex i = "-" ++ hexNat (-i).toNat) ∧
    (∀ h sub bro, configureNonceB64 h sub bro = b64UrlSafeEncode (h (sub ++ bro))) ∧
    (∀ (h : Bytes → Bytes) sub bro, (h (sub ++ bro)).length = 32 →
        (configureNonceB64 h sub bro).data.getLast? = some (Char.ofNat 61)) ∧
    (∀ d, ∀ c ∈ (b64UrlNoPadEncode d).data, c ≠ Char.ofNat 61) := by
  refine ⟨fun _ _ => rfl, fun _ _ => rfl, pyHex_roundtrip, ?_, ?_, ?_, ?_, ?_, ?_⟩
  · intro n
    by_cases hz : n = 0
    · subst hz; rfl
    · rw [show (hexNat n).data = hexNatAux n n [] from by simp [hexNat, hz]]
      exact hexNatAux_all_lower n n le_rfl
  · intro n hz
    rw [show (hexNat n).data = hexNatAux n n [] from by simp [hexNat, hz]]
    exact hexNatAux_head_ne_zero n n hz le_rfl
  · intro i hi
    simp [pyHex, hi]
  · intro h sub bro
    rfl
  · intro h sub bro hlen
    have hmod : (h (sub ++ bro)).length % 3 = 2 := by omega
    obtain ⟨cs, hcs⟩ := b64UrlSafeChars_pad (h (sub ++ bro)) hmod
    show (b64UrlSafeChars (h (sub ++ bro))).getLast? = some (Char.ofNat 61)
    rw [hcs]
    exact List.getLast?_concat cs
  · intro d c hc
    have := List.of_mem_filter hc
    simpa using this

/-- Claim C3, counterexample: at a concrete configured session (zero
nonces, a SHA-256 stub returning 32 zero bytes) the minted send url is
not the claimed "stateful:" ++ unpadded-base64url ++ ":1" string: the
prefix is "websocket:" and the nonce carries an "=" pad. -/
theorem claim_C3_counterexample :
    (mintSendUrl (configureNonceB64 (fun _ => List.replicate 32 0)
        (List.replicate 32 0) (List.replicate 32 0)) 1).fst ≠
      "stateful:" ++ b64UrlNoPadEncode ((fun _ => List.replicate 32 0)
        (List.replicate 32 0 ++ List.replicate 32 0)) ++ ":" ++ "1" := by
  decide

/-- Claim C3, witness: concrete mints, a negative-counter hex roundtrip,
the nonzero leading hex digit, and the trailing "=" of the encoded
nonce. -/
theorem claim_C3_witness :
    mintSendUrl "N" 255 = ("websocket:" ++ "N" ++ ":" ++ pyHex 255, 255 + 1) ∧
    mintReceiveUrl "N" (-1) = ("websocket:" ++ "N" ++ ":" ++ pyHex (-1), -1 - 1) ∧
    parsePyHex (pyHex (-26)) = -26 ∧
    (∃ c l, (hexNat 255).data = c :: l ∧ c ≠ Char.ofNat 48) ∧
    (configureNonceB64 (fun _ => List.replicate 32 0) (List.replicate 32 0)
        (List.replicate 32 0)).data.getLast? = some (Char.ofNat 61) := by
  refine ⟨claim_C3_amended.1 "N" 255, claim_C3_amended.2.1 "N" (-1),
    claim_C3_amended.2.2.1 (-26),
    claim_C3_amended.2.2.2.2.1 255 (by decide),
    claim_C3_amended.2.2.2.2.2.2.2.1 (fun _ => List.replicate 32 0)
      (List.replicate 32 0) (List.replicate 32 0) (by decide)⟩


theorem toBytesBE_two_length (n : Nat) : (toBytesBE n 2).length = 2 := by
  simp [toBytesBE]

theorem beVal_toBytesBE_two (n : Nat) (h : n < 65536) :
    beVal (toBytesBE n 2) = n := by
  simp only [toBytesBE, beVal, List.append_nil, List.nil_append,
    List.foldl_cons, List.foldl_nil, List.foldl_append]
  omega

theorem readExact_exact (a b : Bytes) (n : Nat) (h : n = a.length) :
    readExact (a ++ b) n = .ok (a, b) := by
  subst h
  simp [readExact, List.take_left, List.drop_left]

theorem readExact_be2 (n : Nat) (rest : Bytes) :
    readExact (toBytesBE n 2 ++ rest) 2 = .ok (toBytesBE n 2, rest) :=
  readExact_exact _ _ _ (toBytesBE_two_length n).symm

theorem exceptBind_ok {α β : Type} (a : α) (f : α → Except String β) :
    (do let x ← Except.ok a; f x : Except String β) = f a := rfl

theorem parseMinimal_enc : ∀ (hs : List (String × Bytes)) (acc : List (String × Bytes))
    (rest enc : Bytes), encodeMinimalValues hs = some enc →
    parseMinimalValues (hs.map Prod.fst) (enc ++ rest) acc =
      .ok (hs.foldl (fun d p => pyDictInsert d p.fst p.snd) acc, rest) := by
  intro hs
  induction hs with
  | nil =>
    intro acc rest enc henc
    simp only [encodeMinimalValues, Option.some.injEq] at henc
    subst henc
    simp [parseMinimalValues]
  | cons h t ih =>
    intro acc rest enc henc
    obtain ⟨name, v⟩ := h
    cases htail : encodeMinimalValues t with
    | none =>
      simp only [encodeMinimalValues, htail] at henc
      split_ifs at henc
      exact Option.noConfusion henc
    | some encT =>
      simp only [encodeMinimalValues, htail] at henc
      split_ifs at henc with hlen
      simp only [Option.map_some', Option.some.injEq] at henc
      subst henc
      simp only [List.map_cons, parseMinimalValues, List.append_assoc]
      rw [readExact_be2, exceptBind_ok]
      simp only [beVal_toBytesBE_two v.length hlen]
      rw [readExact_exact v (encT ++ rest) v.length rfl, exceptBind_ok]
      rw [ih (pyDictInsert acc name v) rest encT htail]
      simp

theorem asciiEncode_of_lower (s : String) (h : lowerAsciiName s = true) :
    asciiEncode s = some (s.data.map Char.toNat) := by
  simp only [lowerAsciiName, List.all_eq_true] at h
  simp only [asciiEncode, List.all_eq_true]
  rw [if_pos]
  intro c hc
  have := h c hc
  simp at this ⊢
  omega

theorem asciiDecodeLower_of_lower (s : String) (h : lowerAsciiName s = true) :
    asciiDecodeLower (s.data.map Char.toNat) = .ok s := by
  simp only [lowerAsciiName, List.all_eq_true] at h
  simp only [asciiDecodeLower]
  rw [if_pos]
  · congr 1
    · rw [List.map_map]
      conv_rhs => rw [show s = ⟨s.data⟩ from rfl]
      congr 1
      rw [show s.data = s.data.map id from by simp]
      rw [List.map_map]
      apply List.map_congr_left
      intro c hc
      simp only [Function.comp_apply, id]
      rw [if_neg]
      · exact Char.ofNat_toNat c
      · intro hx
        have hcp := h c hc
        simp [hx.1, hx.2] at hcp
  · simp only [List.all_eq_true]
    intro b hb
    obtain ⟨c, hc, rfl⟩ := List.mem_map.mp hb
    have := h c hc
    simp at this ⊢
    omega

theorem parseExpanded_enc : ∀ (hs : List (String × Bytes))
    (acc : List (String × Bytes)) (rest enc : Bytes),
    (∀ p ∈ hs, lowerAsciiName p.fst = true) →
    encodeExpandedHeaders hs = some enc →
    parseExpandedHeaders hs.length (enc ++ rest) acc =
      .ok (hs.foldl (fun d p => pyDictInsert d p.fst p.snd) acc, rest) := by
  intro hs
  induction hs with
  | nil =>
    intro acc rest enc _ henc
    simp only [encodeExpandedHeaders, Option.some.injEq] at henc
    subst henc
    simp [parseExpandedHeaders]
  | cons h t ih =>
    intro acc rest enc hwf henc
    obtain ⟨name, v⟩ := h
    have hname : lowerAsciiName name = true := hwf (name, v) (by simp)
    simp only [encodeExpandedHeaders] at henc
    rw [asciiEncode_of_lower name hname] at henc
    simp only [] at henc
    cases htail : encodeExpandedHeaders t with
    | none =>
      rw [htail] at henc
      split_ifs at henc
      exact Option.noConfusion henc
    | some encT =>
      rw [htail] at henc
      split_ifs at henc with hlen
      simp only [Option.map_some', Option.some.injEq] at henc
      subst henc
      simp only [List.length_cons, parseExpandedHeaders, List.append_assoc]
      rw [readExact_be2, exceptBind_ok]
      rw [beVal_toBytesBE_two _ hlen.1]
      rw [readExact_exact (name.data.map Char.toNat) _ _ (by simp), exceptBind_ok]
      rw [asciiDecodeLower_of_lower name hname, exceptBind_ok]
      rw [readExact_be2, exceptBind_ok]
      rw [beVal_toBytesBE_two _ hlen.2]
      rw [readExact_exact v (encT ++ rest) v.length rfl, exceptBind_ok]
      rw [ih (pyDictInsert acc name v) rest encT
        (fun p hp => hwf p (by simp [hp])) htail]
      simp

theorem pyDictInsert_of_notMem : ∀ (d : List (String × Bytes)) (k : String)
    (v : Bytes), k ∉ d.map Prod.fst → pyDictInsert d k v = d ++ [(k, v)] := by
  intro d
  induction d with
  | nil => intro k v _; rfl
  | cons p rest ih =>
    intro k v h
    obtain ⟨k0, v0⟩ := p
    simp only [List.map_cons, List.mem_cons, not_or] at h
    simp only [pyDictInsert]
    rw [if_neg (fun hx => h.1 hx.symm), ih k v h.2]
    rfl

theorem pyDictFoldl_of_nodup : ∀ (hs acc : List (String × Bytes)),
    (hs.map Prod.fst).Nodup →
    (∀ k ∈ acc.map Prod.fst, k ∉ hs.map Prod.fst) →
    hs.foldl (fun d p => pyDictInsert d p.fst p.snd) acc = acc ++ hs := by
  intro hs
  induction hs with
  | nil => intro acc _ _; simp
  | cons p t ih =>
    intro acc hnd hdisj
    simp only [List.foldl_cons]
    have hnotin : p.fst ∉ acc.map Prod.fst := by
      intro hx
      exact hdisj p.fst hx (by simp)
    rw [pyDictInsert_of_notMem acc p.fst p.snd hnotin]
    simp only [List.map_cons, List.nodup_cons] at hnd
    rw [ih (acc ++ [(p.fst, p.snd)]) hnd.2 ?_]
    · simp
    · intro k hk
      simp only [List.map_append, List.mem_append] at hk
      rcases hk with hk | hk
      · intro hmem
        exact hdisj k hk (by simp [hmem])
      · simp at hk
        rw [hk]
        exact hnd.1

theorem pyDictOfList_of_nodup (hs : List (String × Bytes))
    (h : (hs.map Prod.fst).Nodup) : pyDictOfList hs = hs := by
  have := pyDictFoldl_of_nodup hs [] h (by simp)
  simpa [pyDictOfList] using this

theorem encodeMinimalValues_oversize : ∀ hs : List (String × Bytes),
    (∃ p ∈ hs, 65536 ≤ p.snd.length) → encodeMinimalValues hs = none := by
  intro hs
  induction hs with
  | nil => intro h; simp at h
  | cons p t ih =>
    intro h
    obtain ⟨q, hq, hlen⟩ := h
    obtain ⟨name, v⟩ := p
    simp only [encodeMinimalValues]
    rcases List.mem_cons.mp hq with hq | hq
    · rw [if_neg (by subst hq; simp at hlen; omega)]
    · rw [ih ⟨q, hq, hlen⟩]
      split_ifs <;> rfl

theorem encodeExpandedHeaders_oversize : ∀ hs : List (String × Bytes),
    (∃ p ∈ hs, 65536 ≤ p.snd.length) → encodeExpandedHeaders hs = none := by
  intro hs
  induction hs with
  | nil => intro h; simp at h
  | cons p t ih =>
    intro h
    obtain ⟨q, hq, hlen⟩ := h
    obtain ⟨name, v⟩ := p
    simp only [encodeExpandedHeaders]
    cases hasc : asciiEncode name with
    | none => rfl
    | some nb =>
      dsimp only
      rcases List.mem_cons.mp hq with hq | hq
      · have hng : ¬(nb.length < 65536 ∧ v.length < 65536) := by
          intro hx
          rw [hq] at hlen
          simp at hlen
          omega
        rw [if_neg hng]
      · rw [ih ⟨q, hq, hlen⟩]
        split_ifs <;> rfl

theorem encodeMinimalValues_cons_inv (name : String) (v : Bytes)
    (t : List (String × Bytes)) (enc : Bytes)
    (h : encodeMinimalValues ((name, v) :: t) = some enc) :
    ∃ encT, encodeMinimalValues t = some encT ∧ v.length < 65536 ∧
      enc = toBytesBE v.length 2 ++ (v ++ encT) := by
  simp only [encodeMinimalValues] at h
  split_ifs at h with hlen
  cases htail : encodeMinimalValues t with
  | none =>
    rw [htail] at h
    exact Option.noConfusion h
  | some encT =>
    rw [htail] at h
    simp only [Option.map_some', Option.some.injEq] at h
    exact ⟨encT, rfl, hlen, by rw [← h]; simp⟩

theorem codecRoundtripExpanded (typ : Nat) (headers : List (String × Bytes))
    (body : Bytes) (enc : Bytes)
    (htyp : 1 ≤ typ ∧ typ ≤ 9)
    (hnames : ∀ p ∈ headers, lowerAsciiName p.fst = true)
    (hnd : (headers.map Prod.fst).Nodup)
    (henc : makeWebsocketMessage 0 typ headers body = some enc) :
    parseWebsocketMessage enc = .ok ⟨0, typ, headers, body⟩ := by
  simp only [makeWebsocketMessage] at henc
  rw [if_pos ⟨by omega, by omega⟩] at henc
  rw [if_neg (by omega)] at henc
  split_ifs at henc with hcount
  cases hh : encodeExpandedHeaders headers with
  | none =>
    rw [hh] at henc
    exact Option.noConfusion henc
  | some encH =>
    rw [hh] at henc
    simp only [Option.map_some', Option.some.injEq] at henc
    subst henc
    simp only [parseWebsocketMessage, List.append_assoc]
    rw [readExact_be2, exceptBind_ok]
    rw [beVal_toBytesBE_two 0 (by omega)]
    rw [readExact_be2, exceptBind_ok]
    rw [beVal_toBytesBE_two typ (by omega)]
    rw [if_neg (by omega)]
    rw [if_neg (by omega)]
    rw [readExact_be2, exceptBind_ok]
    rw [beVal_toBytesBE_two headers.length hcount]
    rw [parseExpanded_enc headers [] body encH hnames hh, exceptBind_ok]
    rw [show headers.foldl (fun d p => pyDictInsert d p.fst p.snd) [] =
      pyDictOfList headers from rfl]
    rw [pyDictOfList_of_nodup headers hnd]

theorem codecRoundtripMinimalStd (typ : Nat) (headers : List (String × Bytes))
    (body : Bytes) (enc : Bytes)
    (htyp : 1 ≤ typ ∧ typ ≤ 9) (h7 : typ ≠ 7)
    (hwire : headers.map Prod.fst = minimalWireNames typ headers)
    (henc : makeWebsocketMessage 1 typ headers body = some enc) :
    parseWebsocketMessage enc = .ok ⟨1, typ, pyDictOfList headers, body⟩ := by
  simp only [makeWebsocketMessage] at henc
  rw [if_pos ⟨by omega, by omega⟩] at henc
  rw [if_pos trivial] at henc
  cases hh : encodeMinimalValues headers with
  | none =>
    rw [hh] at henc
    exact Option.noConfusion henc
  | some encM =>
    rw [hh] at henc
    simp only [Option.map_some', Option.some.injEq] at henc
    subst henc
    simp only [parseWebsocketMessage, List.append_assoc]
    rw [readExact_be2, exceptBind_ok]
    rw [beVal_toBytesBE_two 1 (by omega)]
    rw [readExact_be2, exceptBind_ok]
    rw [beVal_toBytesBE_two typ (by omega)]
    rw [if_neg (by omega)]
    rw [if_pos (by omega)]
    rw [if_neg h7]
    rw [show standardMinimalHeaders typ = headers.map Prod.fst from by
      rw [hwire, minimalWireNames, if_neg h7]]
    rw [parseMinimal_enc headers [] body encM hh, exceptBind_ok]
    rfl

theorem codecRoundtripMinimalStream (headers : List (String × Bytes))
    (body : Bytes) (enc : Bytes)
    (hwire : headers.map Prod.fst = minimalWireNames 7 headers)
    (hlens : notifyStreamLenOk headers)
    (henc : makeWebsocketMessage 1 7 headers body = some enc) :
    parseWebsocketMessage enc = .ok ⟨1, 7, pyDictOfList headers, body⟩ := by
  rcases headers with _ | ⟨⟨n1, v1⟩, _ | ⟨⟨n2, v2⟩, _ | ⟨⟨n3, v3⟩, t⟩⟩⟩
  · simp [minimalWireNames] at hwire
  · simp [minimalWireNames] at hwire
  · simp [minimalWireNames] at hwire
  · rw [minimalWireNames, if_pos rfl] at hwire
    simp only [List.map_cons, List.cons_append, List.nil_append,
      List.cons.injEq] at hwire
    obtain ⟨e1, e2, e3, hX⟩ := hwire
    subst e1; subst e2; subst e3
    have hg : getHeader (("authorization", v1) :: ("x-identifier", v2) ::
        ("x-part-id", v3) :: t) "x-part-id" = some v3 := rfl
    rw [hg] at hX
    dsimp only [notifyStreamLenOk] at hlens
    obtain ⟨h64, h8⟩ := hlens
    simp only [makeWebsocketMessage] at henc
    rw [if_pos ⟨by omega, by omega⟩] at henc
    rw [if_pos trivial] at henc
    cases hh : encodeMinimalValues (("authorization", v1) :: ("x-identifier", v2) ::
        ("x-part-id", v3) :: t) with
    | none =>
      rw [hh] at henc
      exact Option.noConfusion henc
    | some encM =>
      rw [hh] at henc
      simp only [Option.map_some', Option.some.injEq] at henc
      subst henc
      obtain ⟨encA, hhA, hlen1, heA⟩ := encodeMinimalValues_cons_inv _ _ _ _ hh
      obtain ⟨encB, hhB, hlen2, heB⟩ := encodeMinimalValues_cons_inv _ _ _ _ hhA
      obtain ⟨encC, hhC, hlen3, heC⟩ := encodeMinimalValues_cons_inv _ _ _ _ hhB
      subst heA; subst heB; subst heC
      simp only [parseWebsocketMessage, List.append_assoc]
      rw [readExact_be2, exceptBind_ok]
      rw [beVal_toBytesBE_two 1 (by omega)]
      rw [readExact_be2, exceptBind_ok]
      rw [beVal_toBytesBE_two 7 (by omega)]
      rw [if_neg (by omega)]
      rw [if_pos (by omega)]
      rw [if_pos rfl]
      rw [readExact_be2, exceptBind_ok]
      rw [beVal_toBytesBE_two v1.length hlen1]
      rw [readExact_exact v1 _ _ rfl, exceptBind_ok]
      rw [readExact_be2, exceptBind_ok]
      rw [beVal_toBytesBE_two v2.length hlen2]
      rw [if_neg (by omega)]
      rw [readExact_exact v2 _ _ rfl, exceptBind_ok]
      rw [readExact_be2, exceptBind_ok]
      rw [beVal_toBytesBE_two v3.length hlen3]
      rw [if_neg (by omega)]
      rw [readExact_exact v3 _ _ rfl, exceptBind_ok]
      dsimp only at hX ⊢
      rw [← hX]
      rw [show pyDictInsert (pyDictInsert (pyDictInsert []
        "authorization" v1) "x-identifier" v2) "x-part-id" v3 =
        [("authorization", v1), ("x-identifier", v2), ("x-part-id", v3)] from rfl]
      rw [parseMinimal_enc t _ body encC hhC, exceptBind_ok]
      rfl

/-- Claim C8 (amended): for every frame whose flags carry only the
defined bit, whose type is one of the nine decodable codes and whose
header names are distinct-position lowercase ASCII, decoding the encoding
yields the frame again: exactly in the expanded form (with distinct
names), and in the minimal form when the header names and order are the
sequence the decoder actually consumes for that type, which for
NOTIFY_STREAM parts with nonzero part id includes a FOURTH field
(a repetition of x-identifier) beyond the fixed
authorization/x-identifier/x-part-id triple; the decoded header map is
the Python-dict view of the list (equal to the list when names are
distinct).  The encoder fails whenever any header value exceeds the u16
length limit. -/
theorem claim_C8_roundtrip (flags typ : Nat) (headers : List (String × Bytes))
    (body enc : Bytes)
    (hflags : flags = 0 ∨ flags = 1)
    (htyp : 1 ≤ typ ∧ typ ≤ 9)
    (hnames : ∀ p ∈ headers, lowerAsciiName p.fst = true)
    (henc : makeWebsocketMessage flags typ headers body = some enc) :
    (flags = 0 → (headers.map Prod.fst).Nodup →
      parseWebsocketMessage enc = .ok ⟨flags, typ, headers, body⟩) ∧
    (flags = 1 → headers.map Prod.fst = minimalWireNames typ headers →
      (typ = 7 → notifyStreamLenOk headers) →
      parseWebsocketMessage enc = .ok ⟨flags, typ, pyDictOfList headers, body⟩) ∧
    (∀ (hs2 : List (String × Bytes)) (body2 : Bytes),
      (∃ p ∈ hs2, 65536 ≤ p.snd.length) →
      makeWebsocketMessage flags typ hs2 body2 = none) := by
  refine ⟨?_, ?_, ?_⟩
  · intro h0 hnd
    subst h0
    exact codecRoundtripExpanded typ headers body enc htyp hnames hnd henc
  · intro h1 hwire hlens
    subst h1
    by_cases h7 : typ = 7
    · subst h7
      exact codecRoundtripMinimalStream headers body enc hwire (hlens rfl) henc
    · exact codecRoundtripMinimalStd typ headers body enc htyp h7 hwire henc
  · intro hs2 body2 hov
    simp only [makeWebsocketMessage]
    split_ifs
    · rw [encodeMinimalValues_oversize hs2 hov]
      rfl
    · rw [encodeExpandedHeaders_oversize hs2 hov]
      rfl
    · rfl
    · rfl

/-- Claim C8, counterexample: the minimal-form NOTIFY_STREAM frame with
nonzero part id and exactly the three headers of the documented fixed
list (distinct lowercase names, in-range values) does NOT roundtrip: the
decoder demands one further length-prefixed value and fails with an
unexpected end of stream. -/
theorem claim_C8_counterexample :
    makeWebsocketMessage 1 7
      [("authorization", []), ("x-identifier", [97]), ("x-part-id", [1])] [] =
      some [0, 1, 0, 7, 0, 0, 0, 1, 97, 0, 1, 1] ∧
    parseWebsocketMessage [0, 1, 0, 7, 0, 0, 0, 1, 97, 0, 1, 1] =
      .error "unexpected end of stream" ∧
    ([("authorization", []), ("x-identifier", [97]),
      ("x-part-id", [1])] : List (String × Bytes)).map Prod.fst =
      ["authorization", "x-identifier", "x-part-id"] := by
  refine ⟨rfl, rfl, rfl⟩

/-- Claim C8, witness: a concrete expanded SUBSCRIBE_EXACT frame decodes
back to itself, and an oversized header value makes the encoder fail. -/
theorem claim_C8_witness :
    parseWebsocketMessage [0, 0, 0, 2, 0, 2, 0, 13, 97, 117, 116, 104, 111, 114,
      105, 122, 97, 116, 105, 111, 110, 0, 1, 97, 0, 7, 120, 45, 116, 111, 112,
      105, 99, 0, 3, 1, 2, 3, 9, 9] =
      .ok ⟨0, 2, [("authorization", [97]), ("x-topic", [1, 2, 3])], [9, 9]⟩ ∧
    makeWebsocketMessage 0 2 [("x", List.replicate 65536 0)] [] = none := by
  constructor
  · exact (claim_C8_roundtrip 0 2
      [("authorization", [97]), ("x-topic", [1, 2, 3])] [9, 9] _
      (Or.inl rfl) (by omega) (by decide) rfl).1 rfl (by decide)
  · exact (claim_C8_roundtrip 0 2
      [("authorization", [97]), ("x-topic", [1, 2, 3])] [9, 9] _
      (Or.inl rfl) (by omega) (by decide) rfl).2.2
      [("x", List.replicate 65536 0)] []
      ⟨("x", List.replicate 65536 0), List.Mem.head _, by rw [List.length_replicate]⟩

end PubSub
